import Mathlib

/-!
Verification of the PR-reviewer CLI's run-orchestration engine, shallowly
embedded from the Rust sources (src/cli/src/shell.rs, workflow.rs, models.rs).
External effects (process spawns, the filesystem, the clock) are supplied by
explicit oracle parameters; everything the repository computes is translated
definition by definition.
-/

set_option maxRecDepth 8000

/-- The outcome of one external process invocation: `CommandResult` of
shell.rs (exit code, captured stdout and stderr). -/
structure CommandResult where
  exit_code : Int
  stdout : String
  stderr : String
deriving DecidableEq

/-- shell.rs `ExecError`: an I/O (spawn/await) failure carrying a message, or
a non-zero exit carrying the command text and the full result. -/
inductive ExecError where
  | Io (message : String) : ExecError
  | NonZero (command : String) (result : CommandResult) : ExecError
deriving DecidableEq

/-- Rust `str::trim`: strip leading and trailing whitespace. -/
def rustTrim (s : String) : String :=
  String.mk (((s.data.dropWhile Char.isWhitespace).reverse.dropWhile Char.isWhitespace).reverse)

/-- Rust `str::trim_start`: strip leading whitespace. -/
def rustTrimStart (s : String) : String :=
  String.mk (s.data.dropWhile Char.isWhitespace)

/-- Rust `str::is_empty`. -/
def strIsEmpty (s : String) : Bool :=
  s.data.isEmpty

/-- Rust `str::starts_with` with a string pattern. -/
def strStartsWith (s pre : String) : Bool :=
  pre.data.isPrefixOf s.data

/-- shell.rs `render_exec_error`: the message shown for an `ExecError`. -/
def render_exec_error (err : ExecError) : String :=
  match err with
  | ExecError.Io message => message
  | ExecError.NonZero command result =>
    if strIsEmpty (rustTrim result.stderr) then
      command ++ " failed with exit " ++ toString result.exit_code
    else
      command ++ " failed with exit " ++ toString result.exit_code ++ ": "
        ++ rustTrim result.stderr

/-- shell.rs `run_shell_internal`: the raw spawn outcome `raw` (an I/O error
message, or the process result) is the oracle; the function itself applies the
`fail_on_non_zero` conversion of a non-zero exit into a structured error. -/
def run_shell_internal (command : String) (raw : Except String CommandResult)
    (fail_on_non_zero : Bool) : Except ExecError CommandResult :=
  match raw with
  | Except.error msg => Except.error (ExecError.Io msg)
  | Except.ok result =>
    if fail_on_non_zero ∧ result.exit_code ≠ 0 then
      Except.error (ExecError.NonZero command result)
    else
      Except.ok result

/-- What one call of the retry wrapper did: its final result, how many
attempts were made, and the seconds slept between attempts (in order). -/
structure RetryTrace where
  result : Except ExecError CommandResult
  attempts : Nat
  sleeps : List Nat

/-- The `for attempt in 1..=attempts` loop of shell.rs
`run_with_retry_streaming`: `remaining` attempts are left, the next one is
attempt number `attempt`; `step` is the outcome of one attempt. On an error
with attempts left the loop sleeps `max delay 1` seconds and retries; the
first success short-circuits; exhaustion returns the last observed error
(the `remaining = 0` case mirrors the Rust `unwrap_or_else` fallback, never
reached from the public entry point). -/
def retryLoop (step : Nat → Except ExecError CommandResult) (delay : Nat) :
    Nat → Nat → RetryTrace
  | 0, _ => ⟨Except.error (ExecError.Io "unknown command failure"), 0, []⟩
  | 1, attempt =>
    match step attempt with
    | Except.ok r => ⟨Except.ok r, 1, []⟩
    | Except.error e => ⟨Except.error e, 1, []⟩
  | n + 2, attempt =>
    match step attempt with
    | Except.ok r => ⟨Except.ok r, 1, []⟩
    | Except.error _ =>
      let rest := retryLoop step delay (n + 1) (attempt + 1)
      ⟨rest.result, rest.attempts + 1, Nat.max delay 1 :: rest.sleeps⟩

/-- shell.rs `run_with_retry_streaming`: `attempts = retries.max(1) + 1`;
every attempt runs `run_shell_internal` with `fail_on_non_zero = true` on the
raw outcome `raw attempt`. -/
def run_with_retry_streaming (command : String) (raw : Nat → Except String CommandResult)
    (retries delay : Nat) : RetryTrace :=
  retryLoop (fun i => run_shell_internal command (raw i) true) delay (Nat.max retries 1 + 1) 1

/-- shell.rs `run_with_retry`: the non-streaming entry point delegates to the
streaming one. -/
def run_with_retry (command : String) (raw : Nat → Except String CommandResult)
    (retries delay : Nat) : RetryTrace :=
  run_with_retry_streaming command raw retries delay

/-- A raw-outcome oracle whose command always exits 1: used as the concrete
always-failing command. -/
def alwaysFailRaw : Nat → Except String CommandResult :=
  fun _ => Except.ok ⟨1, "", "boom"⟩

/-- Byte-lexicographic string comparison on `List Char`, as Rust's
`str::cmp` orders strings (UTF-8 byte order coincides with code-point
order). `lexLe a b` is `a ≤ b`. -/
def lexLe : List Char → List Char → Bool
  | [], _ => true
  | _ :: _, [] => false
  | a :: as, b :: bs => if a = b then lexLe as bs else decide (a < b)

/-- Rust `char::eq_ignore_ascii_case` lifted to strings, as
`str::eq_ignore_ascii_case` compares them: ASCII uppercase letters are
lowered, everything else must match exactly. -/
def asciiLower (c : Char) : Char :=
  if 65 ≤ c.toNat ∧ c.toNat ≤ 90 then Char.ofNat (c.toNat + 32) else c

/-- Rust `str::eq_ignore_ascii_case`. -/
def eqIgnoreAsciiCase (a b : String) : Bool :=
  decide (a.data.map asciiLower = b.data.map asciiLower)

/-- Rust `str::contains` with a string pattern, on `List Char`: some
position of `s` starts an occurrence of `pat`. -/
def hasSubstrL (pat : List Char) : List Char → Bool
  | [] => pat.isEmpty
  | c :: rest => pat.isPrefixOf (c :: rest) || hasSubstrL pat rest

/-- Rust `str::contains` with a string pattern. -/
def containsSub (s pat : String) : Bool :=
  hasSubstrL pat.data s.data

/-- Rust `str::replace`: replace every non-overlapping occurrence of the
pattern `p0 :: ps`, scanning left to right. `fuel` is an upper bound on the
scan length so the recursion is structural; callers pass the input's
length. -/
def replaceAllFuel (p0 : Char) (ps rep : List Char) : Nat → List Char → List Char
  | 0, s => s
  | _ + 1, [] => []
  | fuel + 1, c :: rest =>
    if (p0 :: ps).isPrefixOf (c :: rest) then
      rep ++ replaceAllFuel p0 ps rep fuel (rest.drop ps.length)
    else
      c :: replaceAllFuel p0 ps rep fuel rest

/-- `replaceAllFuel` at its canonical fuel, the input's length. -/
def listReplace (p0 : Char) (ps rep s : List Char) : List Char :=
  replaceAllFuel p0 ps rep s.length s

/-- Rust `str::replace` on `String` (the repository only ever calls it with
non-empty patterns; an empty pattern is returned unchanged here). -/
def rustReplace (s pat rep : String) : String :=
  match pat.data with
  | [] => s
  | p0 :: ps => String.mk (listReplace p0 ps rep.data s.data)

/-- shell.rs `sh_quote`: wrap in single quotes, escaping embedded single
quotes as `'\''`. -/
def sh_quote (input : String) : String :=
  "'" ++ rustReplace input "'" "'\\''" ++ "'"

/-- A `serde_json::Value`: the generic JSON tree the involvement search
walks. Numbers are irrelevant to the search and modelled as integers. -/
inductive Json where
  | null : Json
  | bool (b : Bool) : Json
  | num (n : Int) : Json
  | str (s : String) : Json
  | arr (elems : List Json) : Json
  | obj (fields : List (String × Json)) : Json

/-- workflow.rs `value_contains_login`: an object matches when its field
literally named "login" is a string equal (ASCII case-insensitively) to the
login, or when any of its values matches recursively; an array matches when
any element does; scalars never match. -/
def value_contains_login (value : Json) (login_lower : String) : Bool :=
  match value with
  | Json.obj fields =>
    (match fields.lookup "login" with
     | some (Json.str v) => eqIgnoreAsciiCase v login_lower
     | _ => false)
    || fields.attach.any (fun kv => value_contains_login kv.1.2 login_lower)
  | Json.arr elems => elems.attach.any (fun v => value_contains_login v.1 login_lower)
  | _ => false
termination_by sizeOf value
decreasing_by
  · rcases kv with ⟨⟨k, w⟩, hmem⟩
    have h1 := List.sizeOf_lt_of_mem hmem
    simp at h1 ⊢
    omega
  · rcases v with ⟨w, hmem⟩
    have h1 := List.sizeOf_lt_of_mem hmem
    simp at h1 ⊢
    omega

/-- `v` occurs somewhere inside `j`: at the root, inside an array element, or
inside an object field's value (at any depth). -/
inductive Subvalue : Json → Json → Prop where
  | refl (v : Json) : Subvalue v v
  | inArr {v w : Json} {elems : List Json} :
      w ∈ elems → Subvalue v w → Subvalue v (Json.arr elems)
  | inObj {v w : Json} {fields : List (String × Json)} {k : String} :
      (k, w) ∈ fields → Subvalue v w → Subvalue v (Json.obj fields)

/-- models.rs `RunStatus`. -/
inductive RunStatus where
  | Idle | Running | Succeeded | Failed
deriving DecidableEq

/-- models.rs `ExecutionStage`. -/
inductive ExecutionStage where
  | Idle | SyncingRepo | LoadingPrs | ReviewingPr | FixingPr | PushingChanges | Completed | Failed
deriving DecidableEq

/-- models.rs `AppSettings` (durations and counts as naturals). -/
structure AppSettings where
  repo_path : String
  repo_clone_url : String
  default_branch : String
  max_prs_per_run : Nat
  max_command_retries : Nat
  retry_delay_seconds : Nat
  review_command_template : String
  fix_command_template : String
  auto_push_enabled : Bool
deriving DecidableEq

/-- models.rs `PrAuthor`. -/
structure PrAuthor where
  login : String
  name : Option String
deriving DecidableEq

/-- models.rs `OpenPr`: the open-PR record parsed from the host tool, with
the raw involvement payloads as generic JSON. -/
structure OpenPr where
  number : Nat
  title : String
  head_ref_name : String
  url : String
  updated_at : String
  author : PrAuthor
  assignees : Json
  reviews : Json
  review_requests : Json
  comments : Json
  latest_reviews : Json

/-- models.rs `PrExecutionResult`. -/
structure PrExecutionResult where
  number : Nat
  title : String
  url : String
  review_exit_code : Int
  fix_exit_code : Int
  pushed : Bool
  report_path : String
  error_message : Option String
deriving DecidableEq

/-- models.rs `RunSnapshot` (timestamps as rendered strings). -/
structure RunSnapshot where
  started_at : Option String
  finished_at : Option String
  status : RunStatus
  stage : ExecutionStage
  total_prs : Nat
  current_index : Nat
  current_pr_number : Option Nat
  current_pr_title : Option String
  error_message : Option String
  report : List PrExecutionResult
  log_lines : List String
deriving DecidableEq

/-- models.rs `impl Default for RunSnapshot`. -/
def defaultRunSnapshot : RunSnapshot :=
  ⟨none, none, RunStatus.Idle, ExecutionStage.Idle, 0, 0, none, none, none, [], []⟩

/-- models.rs `EngineState` exactly as the struct is declared (lines 79-84):
processed PR numbers and the last-run timestamp, nothing else. -/
structure EngineState where
  processed_pr_numbers : List Nat
  last_run_at : Option String
deriving DecidableEq

/-- Modelled from the spec: the engine state shell.rs reads and writes. The
spec lists a "mapping of month-key → set of PR numbers counted that month"
and shell.rs accesses a field `monthly_fixed_pr_numbers_by_month`, but the
`EngineState` struct declared in models.rs (lines 79-84) has no such field;
this structure carries the field those accesses require (as an association
list, the map's entries). -/
structure SyncedEngineState where
  processed_pr_numbers : List Nat
  last_run_at : Option String
  monthly_fixed_pr_numbers_by_month : List (String × List Nat)
deriving DecidableEq

/-- Map insert with replacement (serde/HashMap `insert` at the level of
lookups): the new binding shadows any old binding of the same key. -/
def mapInsert (m : List (String × List Nat)) (k : String) (v : List Nat) :
    List (String × List Nat) :=
  (k, v) :: m.filter (fun kv => !(kv.1 == k))

/-- shell.rs `MonthlyFixCounter`: the month key and the set of PR numbers
counted that month (the `HashSet` modelled as a duplicate-free list). -/
structure MonthlyFixCounter where
  month_key : String
  pr_numbers : List Nat
deriving DecidableEq

/-- shell.rs `MonthlyFixCounter::rotate_if_needed`: when the wall-clock month
key `now_key` differs from the stored one, adopt it and clear the set. -/
def rotate_if_needed (now_key : String) (c : MonthlyFixCounter) : MonthlyFixCounter :=
  if c.month_key ≠ now_key then { month_key := now_key, pr_numbers := [] } else c

/-- shell.rs `initialize_monthly_fix_counter`: load the current month's set
from the durable per-month mapping (empty when absent). -/
def initialize_monthly_fix_counter (state : SyncedEngineState) (now_key : String) :
    MonthlyFixCounter :=
  { month_key := now_key
    pr_numbers := (state.monthly_fixed_pr_numbers_by_month.lookup now_key).getD [] }

/-- shell.rs `record_monthly_fixed_pr`: rotate, then insert; the boolean says
whether the number was newly inserted. -/
def record_monthly_fixed_pr (now_key : String) (c : MonthlyFixCounter) (pr_number : Nat) :
    Bool × MonthlyFixCounter :=
  let c2 := rotate_if_needed now_key c
  if pr_number ∈ c2.pr_numbers then (false, c2)
  else (true, { c2 with pr_numbers := pr_number :: c2.pr_numbers })

/-- shell.rs `monthly_fixed_pr_count`: rotate, then the set's size. -/
def monthly_fixed_pr_count (now_key : String) (c : MonthlyFixCounter) : Nat × MonthlyFixCounter :=
  let c2 := rotate_if_needed now_key c
  (c2.pr_numbers.length, c2)

/-- shell.rs `sync_monthly_fix_counter_into_state`: rotate, sort the current
month's set ascending, and write it into the per-month mapping under the
current key. -/
def sync_monthly_fix_counter_into_state (now_key : String) (c : MonthlyFixCounter)
    (state : SyncedEngineState) : MonthlyFixCounter × SyncedEngineState :=
  let c2 := rotate_if_needed now_key c
  let prs := List.insertionSort (fun a b : Nat => a ≤ b) c2.pr_numbers
  (c2, { state with
          monthly_fixed_pr_numbers_by_month :=
            mapInsert state.monthly_fixed_pr_numbers_by_month c2.month_key prs })

/-- shell.rs `is_codex_review_prompt_conflict`: a non-zero exit of a
`codex review ... --base ...` command whose stderr shows the known
argument-conflict message. -/
def is_codex_review_prompt_conflict (err : ExecError) : Bool :=
  match err with
  | ExecError.NonZero command result =>
    containsSub command "codex review" && containsSub command "--base"
      && containsSub result.stderr "cannot be used with '[PROMPT]'"
  | _ => false

/-- `Err(e).map_err(render_exec_error)` as the workflow call sites apply it. -/
def renderErr (r : Except ExecError CommandResult) : Except String CommandResult :=
  match r with
  | Except.error e => Except.error (render_exec_error e)
  | Except.ok v => Except.ok v

/-- `run_shell` followed by the call sites' `map_err(render_exec_error)`. -/
def run_shellE (command : String) (raw : Except String CommandResult)
    (fail_on_non_zero : Bool) : Except String CommandResult :=
  renderErr (run_shell_internal command raw fail_on_non_zero)

/-- `run_with_retry` / `run_with_retry_streaming` followed by the call
sites' `map_err(render_exec_error)`. -/
def run_with_retryE (command : String) (raw : Nat → Except String CommandResult)
    (retries delay : Nat) : Except String CommandResult :=
  renderErr (run_with_retry command raw retries delay).result

/-- The text of a log entry: workflow.rs `append_log` writes
`"[{now}] {message}"`. -/
def logLine (time message : String) : String :=
  "[" ++ time ++ "] " ++ message

/-- workflow.rs `append_log`: push the line; when over 500 entries, drain the
oldest so exactly 500 remain. -/
def append_log (time : String) (snapshot : RunSnapshot) (message : String) : RunSnapshot :=
  let lines := snapshot.log_lines ++ [logLine time message]
  if 500 < lines.length then
    { snapshot with log_lines := lines.drop (lines.length - 500) }
  else
    { snapshot with log_lines := lines }

/-- workflow.rs `log_step`: append to the bounded log (the verbose console
echo has no state). -/
def log_step (time : String) (snapshot : RunSnapshot) (message : String) : RunSnapshot :=
  append_log time snapshot message

/-- The placeholder `{{PR_NUMBER}}`. -/
def PH_PR_NUMBER : String := "\x7b\x7bPR_NUMBER\x7d\x7d"

/-- The placeholder `{{PR_TITLE}}`. -/
def PH_PR_TITLE : String := "\x7b\x7bPR_TITLE\x7d\x7d"

/-- The placeholder `{{PR_URL}}`. -/
def PH_PR_URL : String := "\x7b\x7bPR_URL\x7d\x7d"

/-- The placeholder `{{PR_BRANCH}}`. -/
def PH_PR_BRANCH : String := "\x7b\x7bPR_BRANCH\x7d\x7d"

/-- The placeholder `{{DEFAULT_BRANCH}}`. -/
def PH_DEFAULT_BRANCH : String := "\x7b\x7bDEFAULT_BRANCH\x7d\x7d"

/-- The placeholder `{{REPO_PATH}}`. -/
def PH_REPO_PATH : String := "\x7b\x7bREPO_PATH\x7d\x7d"

/-- The placeholder `{{WORK_DIR}}`. -/
def PH_WORK_DIR : String := "\x7b\x7bWORK_DIR\x7d\x7d"

/-- The placeholder `{{REPORT_PATH}}`. -/
def PH_REPORT_PATH : String := "\x7b\x7bREPORT_PATH\x7d\x7d"

/-- workflow.rs `expand_template`: the eight chained `replace` calls, in
source order; the PR number is spliced as its bare decimal string, every
other value through `sh_quote`. -/
def expand_template (template : String) (pr : OpenPr) (settings : AppSettings)
    (report_path : String) : String :=
  rustReplace (rustReplace (rustReplace (rustReplace (rustReplace (rustReplace (rustReplace
    (rustReplace template
      PH_PR_NUMBER (toString pr.number))
      PH_PR_TITLE (sh_quote pr.title))
      PH_PR_URL (sh_quote pr.url))
      PH_PR_BRANCH (sh_quote pr.head_ref_name))
      PH_DEFAULT_BRANCH (sh_quote settings.default_branch))
      PH_REPO_PATH (sh_quote settings.repo_path))
      PH_WORK_DIR (sh_quote settings.repo_path))
      PH_REPORT_PATH (sh_quote report_path)

/-- workflow.rs `validate_command_templates`: the deny-list of known
unsupported template forms. -/
def validate_command_templates (settings : AppSettings) : Except String Unit :=
  if containsSub settings.review_command_template "codex review --pr" then
    Except.error "review_command_template contains unsupported flags (--pr). Please use `codex review --base \x7b\x7bDEFAULT_BRANCH\x7d\x7d` style."
  else if strStartsWith (rustTrimStart settings.fix_command_template) "codex fix" then
    Except.error "fix_command_template uses unsupported `codex fix`. Please use `codex exec \"...\"`."
  else Except.ok ()

/-- Descending order on `updated_at` (most recently updated first), by
lexicographic string comparison — the comparator of
`new_prs.sort_by(|a, b| b.updated_at.cmp(&a.updated_at))`. -/
def updatedDesc (a b : OpenPr) : Prop :=
  lexLe b.updated_at.data a.updated_at.data = true

instance : DecidableRel updatedDesc :=
  fun a b => Bool.decEq (lexLe b.updated_at.data a.updated_at.data) true

/-- Ascending order on a report entry's PR number — the comparator of
`snapshot.report.sort_by_key(|item| item.number)`. -/
def reportByNumber (a b : PrExecutionResult) : Prop :=
  a.number ≤ b.number

instance : DecidableRel reportByNumber :=
  fun a b => Nat.decLe a.number b.number

/-- The execute-path work list of workflow.rs `run_workflow` (lines 643-651):
drop PRs whose number is already processed, sort descending by `updated_at`
(a stable sort, as Rust's `sort_by`), truncate to `max_prs_per_run`. -/
def selectPrsForExecution (open_prs : List OpenPr) (processed : List Nat)
    (max_prs_per_run : Nat) : List OpenPr :=
  let new_prs := open_prs.filter (fun pr => !(processed.contains pr.number))
  let sorted := List.insertionSort updatedDesc new_prs
  sorted.take max_prs_per_run

/-- The per-PR external world of `execute_pr`: the report file path the run
chose, raw outcomes for each spawned command (indexed by retry attempt), the
outcome of `commit_and_push_if_needed`, and the persistence calls'
outcomes. -/
structure PrEnv where
  reportPath : String
  checkoutRaw : Nat → Except String CommandResult
  reviewRaw : Nat → Except String CommandResult
  reviewFallbackRaw : Nat → Except String CommandResult
  fixRaw : Nat → Except String CommandResult
  commitPush : Except ExecError Bool
  persistSnapshot : Except String Unit
  writeReport : Except String Unit
  saveState : Except String Unit

/-- The review step of workflow.rs `execute_pr` (lines 450-477): run the
expanded review command with retry; on the specific `codex review --base`
prompt conflict, fall back once to the bare `--base` form. -/
def review_step (penv : PrEnv) (settings : AppSettings) (pr : OpenPr) :
    Except String CommandResult :=
  match (run_with_retry_streaming
      (expand_template settings.review_command_template pr settings penv.reportPath)
      penv.reviewRaw settings.max_command_retries settings.retry_delay_seconds).result with
  | Except.ok result => Except.ok result
  | Except.error err =>
    if is_codex_review_prompt_conflict err then
      renderErr (run_with_retry_streaming
        ("codex review --base " ++ sh_quote settings.default_branch)
        penv.reviewFallbackRaw settings.max_command_retries settings.retry_delay_seconds).result
    else Except.error (render_exec_error err)

/-- workflow.rs `execute_pr`, lines 409-547: checkout, review (with the one
fallback), report, fix, optional commit-and-push, and — when review and fix
both exited 0 and a push happened — the monthly-counter record and state
sync. The snapshot bookkeeping the function does (stage pointers, log lines)
is carried by the caller's loop; on failure the caller keeps its counter and
state. -/
def execute_pr (penv : PrEnv) (settings : AppSettings) (pr : OpenPr) (now_key : String)
    (counter : MonthlyFixCounter) (state : SyncedEngineState) :
    Except String (PrExecutionResult × MonthlyFixCounter × SyncedEngineState) := do
  let _ ← penv.persistSnapshot
  let _ ← run_with_retryE ("gh pr checkout " ++ toString pr.number) penv.checkoutRaw
    settings.max_command_retries settings.retry_delay_seconds
  let review_result ← review_step penv settings pr
  let _ ← penv.writeReport
  let _ ← penv.persistSnapshot
  let fix_result ← run_with_retryE
    (expand_template settings.fix_command_template pr settings penv.reportPath)
    penv.fixRaw settings.max_command_retries settings.retry_delay_seconds
  let pushed ←
    if settings.auto_push_enabled then do
      let _ ← penv.persistSnapshot
      match penv.commitPush with
      | Except.error e => Except.error (render_exec_error e)
      | Except.ok b => Except.ok b
    else Except.ok false
  let counterState ←
    if review_result.exit_code = 0 ∧ fix_result.exit_code = 0 ∧ pushed = true then
      match record_monthly_fixed_pr now_key counter pr.number with
      | (true, c2) =>
        match sync_monthly_fix_counter_into_state now_key c2 state with
        | (c3, st2) =>
          match penv.saveState with
          | Except.error e => Except.error e
          | Except.ok _ => Except.ok (c3, st2)
      | (false, c2) => Except.ok (c2, state)
    else Except.ok (counter, state)
  Except.ok
    ({ number := pr.number
       title := pr.title
       url := pr.url
       review_exit_code := review_result.exit_code
       fix_exit_code := fix_result.exit_code
       pushed := pushed
       report_path := penv.reportPath
       error_message := none }, counterState.1, counterState.2)

/-- The run-level external world of `run_workflow`: the clock (one rendered
timestamp), raw outcomes for every spawned command, the PR-list JSON parse,
each PR's `PrEnv`, and the persistence calls' outcomes. -/
structure WorkflowEnv where
  time : String
  whichGitRaw : Except String CommandResult
  whichGhRaw : Except String CommandResult
  whichCodexRaw : Except String CommandResult
  createRepoDir : Except String Unit
  dirEmpty : Except String Bool
  cloneRaw : Nat → Except String CommandResult
  revParseRaw : Except String CommandResult
  statusRaw : Except String CommandResult
  resetRaw : Except String CommandResult
  cleanRaw : Except String CommandResult
  fetchRaw : Nat → Except String CommandResult
  checkoutBranchRaw : Nat → Except String CommandResult
  pullRaw : Nat → Except String CommandResult
  listRaw : Nat → Except String CommandResult
  parsePrs : String → Except String (List OpenPr)
  prEnv : OpenPr → PrEnv
  persistSnapshot : Except String Unit
  saveState : Except String Unit

/-- workflow.rs `validate_required_commands`: `command -v` for git, gh and
codex; a non-zero exit is the corresponding "not found" failure. -/
def validate_required_commands (env : WorkflowEnv) : Except String Unit :=
  match run_shellE "command -v git" env.whichGitRaw false with
  | Except.error e => Except.error e
  | Except.ok r1 =>
    if r1.exit_code ≠ 0 then Except.error "git CLI not found"
    else match run_shellE "command -v gh" env.whichGhRaw false with
      | Except.error e => Except.error e
      | Except.ok r2 =>
        if r2.exit_code ≠ 0 then Except.error "gh CLI not found"
        else match run_shellE "command -v codex" env.whichCodexRaw false with
          | Except.error e => Except.error e
          | Except.ok r3 =>
            if r3.exit_code ≠ 0 then Except.error "codex CLI not found"
            else Except.ok ()

/-- workflow.rs `ensure_repo_ready` (lines 64-118): reject an empty or
remote-URL `repo_path`; create the directory; when it is empty, clone (which
demands a non-empty `repo_clone_url` — otherwise "cannot auto clone"); then
check the directory is a git work tree. -/
def ensure_repo_ready (env : WorkflowEnv) (settings : AppSettings) : Except String Unit :=
  if strIsEmpty (rustTrim settings.repo_path) then
    Except.error "settings.repo_path is empty"
  else if strStartsWith settings.repo_path "http://" || strStartsWith settings.repo_path "https://"
      || strStartsWith settings.repo_path "git@" then
    Except.error "settings.repo_path must be a local directory path, not a remote URL; put remote URL in settings.repo_clone_url"
  else
    match env.createRepoDir with
    | Except.error e => Except.error e
    | Except.ok _ =>
      match env.dirEmpty with
      | Except.error e => Except.error e
      | Except.ok isEmpty =>
        let afterClone : Except String Unit :=
          if isEmpty then
            if strIsEmpty (rustTrim settings.repo_clone_url) then
              Except.error "repo_path is empty and settings.repo_clone_url is empty, cannot auto clone"
            else
              match run_with_retryE
                  ("git clone " ++ sh_quote settings.repo_clone_url ++ " "
                    ++ sh_quote settings.repo_path)
                  env.cloneRaw settings.max_command_retries settings.retry_delay_seconds with
              | Except.error e => Except.error e
              | Except.ok _ => Except.ok ()
          else Except.ok ()
        match afterClone with
        | Except.error e => Except.error e
        | Except.ok _ =>
          match run_shellE "git rev-parse --is-inside-work-tree" env.revParseRaw false with
          | Except.error e => Except.error e
          | Except.ok repo_check =>
            if repo_check.exit_code ≠ 0 then
              Except.error ("repo_path is not a git repository: " ++ settings.repo_path)
            else Except.ok ()

/-- workflow.rs `rollback_uncommitted_changes`: hard reset and clean, only
when `git status --porcelain` reports changes. -/
def rollback_uncommitted_changes (env : WorkflowEnv) : Except String Unit :=
  match run_shellE "git status --porcelain" env.statusRaw true with
  | Except.error e => Except.error e
  | Except.ok status =>
    if strIsEmpty (rustTrim status.stdout) then Except.ok ()
    else
      match run_shellE "git reset --hard HEAD" env.resetRaw true with
      | Except.error e => Except.error e
      | Except.ok _ =>
        match run_shellE "git clean -fd" env.cleanRaw true with
        | Except.error e => Except.error e
        | Except.ok _ => Except.ok ()

/-- workflow.rs `sync_repository`: rollback, then fetch, checkout and pull of
the default branch, each with retry. -/
def sync_repository (env : WorkflowEnv) (settings : AppSettings) : Except String Unit := do
  let _ ← rollback_uncommitted_changes env
  let _ ← run_with_retryE "git fetch --all --prune" env.fetchRaw
    settings.max_command_retries settings.retry_delay_seconds
  let _ ← run_with_retryE ("git checkout " ++ sh_quote settings.default_branch)
    env.checkoutBranchRaw settings.max_command_retries settings.retry_delay_seconds
  let _ ← run_with_retryE ("git pull --ff-only origin " ++ sh_quote settings.default_branch)
    env.pullRaw settings.max_command_retries settings.retry_delay_seconds
  pure ()

/-- workflow.rs `list_open_prs`: the `gh pr list` call with retry, and the
JSON parse of its stdout. -/
def list_open_prs (env : WorkflowEnv) (settings : AppSettings) :
    Except String (List OpenPr) := do
  let result ← run_with_retryE
    "gh pr list --state open --limit 200 --json number,title,headRefName,url,updatedAt,author,assignees,reviews,reviewRequests,comments,latestReviews"
    env.listRaw settings.max_command_retries settings.retry_delay_seconds
  env.parsePrs result.stdout

/-- The failed report entry run_workflow records when `execute_pr` returns an
error: `-1` sentinel exit codes, no push, the message populated. -/
def failedEntry (pr : OpenPr) (err : String) : PrExecutionResult :=
  { number := pr.number
    title := pr.title
    url := pr.url
    review_exit_code := -1
    fix_exit_code := -1
    pushed := false
    report_path := ""
    error_message := some err }

/-- The `for (idx, pr) in new_prs.iter().enumerate()` loop of
workflow.rs `run_workflow` (lines 677-719): run each PR, record its result or
its failure, keep the report sorted by PR number, persist after every PR, and
never abort on a single PR's failure. The stage updates `execute_pr` makes
between its entry and its return are not tracked; the run-level status is set
after the loop either way. -/
def runPrLoop (env : WorkflowEnv) (settings : AppSettings) (now_key : String) (total : Nat) :
    List OpenPr → Nat → Nat → MonthlyFixCounter → SyncedEngineState → RunSnapshot →
    List Nat →
    Except String (Nat × MonthlyFixCounter × SyncedEngineState × RunSnapshot × List Nat)
  | [], _, failures, counter, state, snapshot, processedAcc =>
    Except.ok (failures, counter, state, snapshot, processedAcc)
  | pr :: rest, idx, failures, counter, state, snapshot, processedAcc =>
    let snapshot1 := { snapshot with
      current_index := idx + 1
      current_pr_number := some pr.number
      current_pr_title := some pr.title
      stage := ExecutionStage.ReviewingPr }
    let snapshot2 := log_step env.time snapshot1
      ("[" ++ toString (idx + 1) ++ "/" ++ toString total ++ "] Processing PR #"
        ++ toString pr.number ++ ": " ++ pr.title)
    match execute_pr (env.prEnv pr) settings pr now_key counter state with
    | Except.ok (pr_result, counter2, state2) =>
      let processedAcc2 :=
        if pr.number ∈ processedAcc then processedAcc else pr.number :: processedAcc
      let snapshotA := { snapshot2 with report := snapshot2.report ++ [pr_result] }
      let snapshotB := log_step env.time snapshotA
        ("PR #" ++ toString pr.number ++ " finished")
      let snapshotC := { snapshotB with
        report := List.insertionSort reportByNumber snapshotB.report }
      match env.persistSnapshot with
      | Except.error e => Except.error e
      | Except.ok _ =>
        runPrLoop env settings now_key total rest (idx + 1) failures counter2 state2
          snapshotC processedAcc2
    | Except.error err =>
      let snapshotA := log_step env.time snapshot2
        ("PR #" ++ toString pr.number ++ " failed: " ++ err)
      let snapshotB := { snapshotA with report := snapshotA.report ++ [failedEntry pr err] }
      let snapshotC := { snapshotB with
        report := List.insertionSort reportByNumber snapshotB.report }
      match env.persistSnapshot with
      | Except.error e => Except.error e
      | Except.ok _ =>
        runPrLoop env settings now_key total rest (idx + 1) (failures + 1) counter state
          snapshotC processedAcc

/-- The repeated early-failure branch of `run_workflow`: mark the snapshot
Failed, record the error and finish time, log, persist, and end the run
normally (the run's own `Result` is `Ok`). -/
def failRun (env : WorkflowEnv) (snapshot : RunSnapshot) (state : SyncedEngineState)
    (err : String) (logMsg : String) : Except String (RunSnapshot × SyncedEngineState) :=
  let s1 := { snapshot with
    status := RunStatus.Failed
    stage := ExecutionStage.Failed
    error_message := some err
    finished_at := some env.time }
  let s2 := log_step env.time s1 logMsg
  match env.persistSnapshot with
  | Except.error e => Except.error e
  | Except.ok _ => Except.ok (s2, state)

/-- workflow.rs `run_workflow` (lines 549-751): validate tools, prepare the
repository, validate templates, sync, list open PRs, select the work list,
execute each PR without aborting on per-PR failures, merge the processed set
and the counter into the engine state, and set the terminal status from the
failure count. -/
def run_workflow (env : WorkflowEnv) (settings : AppSettings) (state : SyncedEngineState)
    (now_key : String) : Except String (RunSnapshot × SyncedEngineState) :=
  let counter := initialize_monthly_fix_counter state now_key
  let snapshot0 : RunSnapshot :=
    { started_at := some env.time
      finished_at := none
      status := RunStatus.Running
      stage := ExecutionStage.SyncingRepo
      total_prs := 0
      current_index := 0
      current_pr_number := none
      current_pr_title := none
      error_message := none
      report := []
      log_lines := [] }
  let snapshot1 := log_step env.time snapshot0 "Start run"
  match env.persistSnapshot with
  | Except.error e => Except.error e
  | Except.ok _ =>
    let snapshot2 := log_step env.time snapshot1 "Validate required commands"
    match validate_required_commands env with
    | Except.error err => failRun env snapshot2 state err ("Validation failed: " ++ err)
    | Except.ok _ =>
      let snapshot3 := log_step env.time snapshot2 "Prepare repository (auto clone if empty)"
      match ensure_repo_ready env settings with
      | Except.error err =>
        failRun env snapshot3 state err ("Repository preparation failed: " ++ err)
      | Except.ok _ =>
        let snapshot4 := log_step env.time snapshot3 "Validate command templates"
        match validate_command_templates settings with
        | Except.error err =>
          failRun env snapshot4 state err ("Template validation failed: " ++ err)
        | Except.ok _ =>
          let snapshot5 := log_step env.time snapshot4 "Sync repository"
          match sync_repository env settings with
          | Except.error err => failRun env snapshot5 state err ("Sync failed: " ++ err)
          | Except.ok _ =>
            let snapshot6 := log_step env.time
              { snapshot5 with stage := ExecutionStage.LoadingPrs } "Loading open PR list"
            match env.persistSnapshot with
            | Except.error e => Except.error e
            | Except.ok _ =>
              match list_open_prs env settings with
              | Except.error err =>
                failRun env snapshot6 state err ("Load PRs failed: " ++ err)
              | Except.ok open_prs =>
                let new_prs := selectPrsForExecution open_prs state.processed_pr_numbers
                  settings.max_prs_per_run
                let snapshot7 := log_step env.time
                  { snapshot6 with total_prs := new_prs.length }
                  ("Found " ++ toString new_prs.length ++ " new PR(s)")
                match env.persistSnapshot with
                | Except.error e => Except.error e
                | Except.ok _ =>
                  if new_prs.isEmpty then
                    let snapshot8 := { snapshot7 with
                      status := RunStatus.Succeeded
                      stage := ExecutionStage.Completed
                      finished_at := some env.time }
                    match sync_monthly_fix_counter_into_state now_key counter
                        { state with last_run_at := some env.time } with
                    | (_, state2) =>
                      match env.saveState with
                      | Except.error e => Except.error e
                      | Except.ok _ =>
                        let snapshot9 := log_step env.time snapshot8 "No new PRs, run finished"
                        match env.persistSnapshot with
                        | Except.error e => Except.error e
                        | Except.ok _ => Except.ok (snapshot9, state2)
                  else
                    match runPrLoop env settings now_key new_prs.length new_prs 0 0 counter
                        state snapshot7 state.processed_pr_numbers with
                    | Except.error e => Except.error e
                    | Except.ok (failures, counter2, state2, snapshot8, processedAcc) =>
                      let state3 := { state2 with
                        processed_pr_numbers :=
                          List.insertionSort (fun a b : Nat => a ≤ b) processedAcc
                        last_run_at := some env.time }
                      match sync_monthly_fix_counter_into_state now_key counter2 state3 with
                      | (_, state4) =>
                        match env.saveState with
                        | Except.error e => Except.error e
                        | Except.ok _ =>
                          let snapshot9 :=
                            if 0 < failures then
                              log_step env.time
                                { snapshot8 with
                                  status := RunStatus.Failed
                                  stage := ExecutionStage.Failed
                                  error_message :=
                                    some (toString failures ++ " PR(s) failed") }
                                ("Run completed with " ++ toString failures ++ " failure(s)")
                            else
                              log_step env.time
                                { snapshot8 with
                                  status := RunStatus.Succeeded
                                  stage := ExecutionStage.Completed }
                                "Run completed successfully"
                          let snapshot10 := { snapshot9 with finished_at := some env.time }
                          match env.persistSnapshot with
                          | Except.error e => Except.error e
                          | Except.ok _ => Except.ok (snapshot10, state4)

/-- The character `{`, which every template placeholder starts with. -/
def braceChar : Char := Char.ofNat 123

/-- A string without `{`: substituted template values of this shape can never
create or destroy a later placeholder. -/
def braceFree (s : String) : Prop := braceChar ∉ s.data

instance braceFreeDecidable (s : String) : Decidable (braceFree s) :=
  inferInstanceAs (Decidable (braceChar ∉ s.data))

/-- The last 500 entries of a list (all of it when shorter): the bound
`append_log` maintains. -/
def keepLast500 (l : List String) : List String :=
  l.drop (l.length - 500)

/-- A raw outcome that succeeded with exit code 0 and no output. -/
def okCmd : Except String CommandResult := Except.ok ⟨0, "", ""⟩

/-- An attempt oracle whose every attempt exits 0. -/
def okCmdF : Nat → Except String CommandResult := fun _ => Except.ok ⟨0, "", ""⟩

/-- An attempt oracle whose every attempt exits 1. -/
def failCmdF : Nat → Except String CommandResult := fun _ => Except.ok ⟨1, "", "review blew up"⟩

/-- A per-PR environment where every external step succeeds. -/
def prEnvOk : PrEnv :=
  { reportPath := "/rep"
    checkoutRaw := okCmdF
    reviewRaw := okCmdF
    reviewFallbackRaw := okCmdF
    fixRaw := okCmdF
    commitPush := Except.ok true
    persistSnapshot := Except.ok ()
    writeReport := Except.ok ()
    saveState := Except.ok () }

/-- A per-PR environment whose review command always exits 1. -/
def prEnvFail : PrEnv :=
  { prEnvOk with reviewRaw := failCmdF, reviewFallbackRaw := failCmdF }

/-- A run environment where every external step succeeds and the open-PR list
is empty. -/
def envAllOk : WorkflowEnv :=
  { time := "T"
    whichGitRaw := okCmd
    whichGhRaw := okCmd
    whichCodexRaw := okCmd
    createRepoDir := Except.ok ()
    dirEmpty := Except.ok false
    cloneRaw := okCmdF
    revParseRaw := okCmd
    statusRaw := okCmd
    resetRaw := okCmd
    cleanRaw := okCmd
    fetchRaw := okCmdF
    checkoutBranchRaw := okCmdF
    pullRaw := okCmdF
    listRaw := okCmdF
    parsePrs := fun _ => Except.ok []
    prEnv := fun _ => prEnvOk
    persistSnapshot := Except.ok ()
    saveState := Except.ok () }

/-- Settings with a usable repository path and trivial templates. -/
def settingsBase : AppSettings :=
  { repo_path := "/r"
    repo_clone_url := ""
    default_branch := "main"
    max_prs_per_run := 20
    max_command_retries := 2
    retry_delay_seconds := 0
    review_command_template := "r"
    fix_command_template := "f"
    auto_push_enabled := true }

/-- Settings whose `repo_path` and `repo_clone_url` are both empty. -/
def settingsEmptyPath : AppSettings :=
  { settingsBase with repo_path := "" }

/-- Settings with auto-push disabled. -/
def settingsNoPush : AppSettings :=
  { settingsBase with auto_push_enabled := false }

/-- An engine state with nothing recorded. -/
def stateEmpty : SyncedEngineState := ⟨[], none, []⟩

/-- A concrete open PR (number 5). -/
def prC5 : OpenPr :=
  { number := 5
    title := "t"
    head_ref_name := "b"
    url := "u"
    updated_at := "2024-03"
    author := ⟨"alice", none⟩
    assignees := Json.null
    reviews := Json.null
    review_requests := Json.null
    comments := Json.null
    latest_reviews := Json.null }

/-- A concrete open PR (number 10) whose execution succeeds. -/
def prTen : OpenPr := { prC5 with number := 10, title := "ten", updated_at := "2024-02" }

/-- A concrete open PR (number 11) whose review command fails. -/
def prEleven : OpenPr := { prC5 with number := 11, title := "eleven", updated_at := "2024-01" }

/-- The run environment of the two-PR scenario: PR #10 succeeds, PR #11's
review fails. -/
def envTwoPrs : WorkflowEnv :=
  { envAllOk with
    parsePrs := fun _ => Except.ok [prTen, prEleven]
    prEnv := fun pr => if pr.number == 11 then prEnvFail else prEnvOk }

/-- The two-PR run's outcome. -/
def wfTwoPrs : Except String (RunSnapshot × SyncedEngineState) :=
  run_workflow envTwoPrs settingsNoPush stateEmpty "2026-10"

/-- The two-PR run's final snapshot. -/
def snapTwoPrs : RunSnapshot :=
  match wfTwoPrs with
  | Except.ok (s, _) => s
  | Except.error _ => defaultRunSnapshot

/-- The two-PR run's final engine state. -/
def stTwoPrs : SyncedEngineState :=
  match wfTwoPrs with
  | Except.ok (_, st) => st
  | Except.error _ => stateEmpty

/-- The empty-`repo_path` run's outcome. -/
def wfEmptyPath : Except String (RunSnapshot × SyncedEngineState) :=
  run_workflow envAllOk settingsEmptyPath stateEmpty "2026-10"

/-- The empty-`repo_path` run's final snapshot. -/
def snapEmptyPath : RunSnapshot :=
  match wfEmptyPath with
  | Except.ok (s, _) => s
  | Except.error _ => defaultRunSnapshot

/-- The result `execute_pr` computes for `prC5` when every step succeeds and
auto-push is disabled. -/
def resNoPush : PrExecutionResult :=
  ⟨5, "t", "u", 0, 0, false, "/rep", none⟩

/-- 501 messages: the 1st is "m0", the 2nd "m1", and the 3rd through 501st
(the last, in particular) are "x". -/
def msgs501 : List String := "m0" :: "m1" :: List.replicate 499 "x"

/-- The number of failed entries of a report: those whose `error_message` is
populated. -/
def countFailed (l : List PrExecutionResult) : Nat :=
  l.countP (fun e => e.error_message.isSome)

/-- The snapshot the per-PR loop carries into the next iteration after a PR
whose `execute_pr` failed with `err`: stage pointers, the two log lines, the
failed report entry, and the re-sort by PR number. -/
def loopFailSnapshot (env : WorkflowEnv) (pr : OpenPr) (err : String) (idx total : Nat)
    (snapshot : RunSnapshot) : RunSnapshot :=
  let snapshot1 := { snapshot with
    current_index := idx + 1
    current_pr_number := some pr.number
    current_pr_title := some pr.title
    stage := ExecutionStage.ReviewingPr }
  let snapshot2 := log_step env.time snapshot1
    ("[" ++ toString (idx + 1) ++ "/" ++ toString total ++ "] Processing PR #"
      ++ toString pr.number ++ ": " ++ pr.title)
  let snapshotA := log_step env.time snapshot2
    ("PR #" ++ toString pr.number ++ " failed: " ++ err)
  let snapshotB := { snapshotA with report := snapshotA.report ++ [failedEntry pr err] }
  { snapshotB with report := List.insertionSort reportByNumber snapshotB.report }

/-- The snapshot the per-PR loop carries into the next iteration after a PR
whose `execute_pr` returned `pr_result`: stage pointers, the two log lines,
the report entry, and the re-sort by PR number. -/
def loopOkSnapshot (env : WorkflowEnv) (pr : OpenPr) (pr_result : PrExecutionResult)
    (idx total : Nat) (snapshot : RunSnapshot) : RunSnapshot :=
  let snapshot1 := { snapshot with
    current_index := idx + 1
    current_pr_number := some pr.number
    current_pr_title := some pr.title
    stage := ExecutionStage.ReviewingPr }
  let snapshot2 := log_step env.time snapshot1
    ("[" ++ toString (idx + 1) ++ "/" ++ toString total ++ "] Processing PR #"
      ++ toString pr.number ++ ": " ++ pr.title)
  let snapshotA := { snapshot2 with report := snapshot2.report ++ [pr_result] }
  let snapshotB := log_step env.time snapshotA
    ("PR #" ++ toString pr.number ++ " finished")
  { snapshotB with report := List.insertionSort reportByNumber snapshotB.report }

/-- No suffix of `s` is a prefix of `pat` nor starts an occurrence of `pat`:
appending anything to `s` cannot make an occurrence of `pat` start inside
`s`. -/
def noOverlap (pat : List Char) : List Char → Bool
  | [] => true
  | c :: rest =>
    !(pat.isPrefixOf (c :: rest)) && !((c :: rest).isPrefixOf pat) && noOverlap pat rest

/-- A template decomposed into pieces: literal text, or an occurrence of one
of the eight placeholders `expand_template` replaces. -/
inductive TemplatePiece where
  | lit (s : String)
  | number
  | title
  | url
  | branch
  | defaultBranch
  | repoPath
  | workDir
  | reportPath
deriving DecidableEq

/-- The source text of a piece: the placeholder token, or the literal. -/
def pieceText : TemplatePiece → String
  | TemplatePiece.lit s => s
  | TemplatePiece.number => PH_PR_NUMBER
  | TemplatePiece.title => PH_PR_TITLE
  | TemplatePiece.url => PH_PR_URL
  | TemplatePiece.branch => PH_PR_BRANCH
  | TemplatePiece.defaultBranch => PH_DEFAULT_BRANCH
  | TemplatePiece.repoPath => PH_REPO_PATH
  | TemplatePiece.workDir => PH_WORK_DIR
  | TemplatePiece.reportPath => PH_REPORT_PATH

/-- The value workflow.rs `expand_template` splices for a piece: literals
stay, the PR number becomes its bare decimal string, every other placeholder
the `sh_quote` of its value. -/
def pieceValue (pr : OpenPr) (settings : AppSettings) (report_path : String) :
    TemplatePiece → String
  | TemplatePiece.lit s => s
  | TemplatePiece.number => toString pr.number
  | TemplatePiece.title => sh_quote pr.title
  | TemplatePiece.url => sh_quote pr.url
  | TemplatePiece.branch => sh_quote pr.head_ref_name
  | TemplatePiece.defaultBranch => sh_quote settings.default_branch
  | TemplatePiece.repoPath => sh_quote settings.repo_path
  | TemplatePiece.workDir => sh_quote settings.repo_path
  | TemplatePiece.reportPath => sh_quote report_path

/-- The characters of a piece list under a piece-to-string rendering. -/
def concatPieces (f : TemplatePiece → String) : List TemplatePiece → List Char
  | [] => []
  | p :: rest => (f p).data ++ concatPieces f rest

/-- The template a piece list spells: the concatenation of its pieces'
source texts. -/
def renderTemplate (pieces : List TemplatePiece) : String :=
  String.mk (concatPieces pieceText pieces)

/-- The simultaneous substitution the spec describes: each placeholder
occurrence replaced by its value, literal text kept. -/
def substTemplate (pr : OpenPr) (settings : AppSettings) (report_path : String)
    (pieces : List TemplatePiece) : String :=
  String.mk (concatPieces (pieceValue pr settings report_path) pieces)

/-- A piece after the first `k` of the eight chained replaces of
`expand_template` (source order: number, title, url, branch, default branch,
repo path, work dir, report path): substituted if its replace already ran,
otherwise still the placeholder token. -/
def pieceStage (pr : OpenPr) (settings : AppSettings) (report_path : String) (k : Nat) :
    TemplatePiece → String
  | TemplatePiece.lit s => s
  | TemplatePiece.number => if 1 ≤ k then toString pr.number else PH_PR_NUMBER
  | TemplatePiece.title => if 2 ≤ k then sh_quote pr.title else PH_PR_TITLE
  | TemplatePiece.url => if 3 ≤ k then sh_quote pr.url else PH_PR_URL
  | TemplatePiece.branch => if 4 ≤ k then sh_quote pr.head_ref_name else PH_PR_BRANCH
  | TemplatePiece.defaultBranch =>
    if 5 ≤ k then sh_quote settings.default_branch else PH_DEFAULT_BRANCH
  | TemplatePiece.repoPath => if 6 ≤ k then sh_quote settings.repo_path else PH_REPO_PATH
  | TemplatePiece.workDir => if 7 ≤ k then sh_quote settings.repo_path else PH_WORK_DIR
  | TemplatePiece.reportPath => if 8 ≤ k then sh_quote report_path else PH_REPORT_PATH

theorem retryLoop_spec (step : Nat → Except ExecError CommandResult) (delay : Nat) :
    ∀ n a,
      (retryLoop step delay (n + 1) a).attempts ≤ n + 1
      ∧ (retryLoop step delay (n + 1) a).sleeps.length + 1 = (retryLoop step delay (n + 1) a).attempts
      ∧ (∀ s ∈ (retryLoop step delay (n + 1) a).sleeps, s = Nat.max delay 1)
      ∧ (∀ r, (retryLoop step delay (n + 1) a).result = Except.ok r →
          step (a + (retryLoop step delay (n + 1) a).attempts - 1) = Except.ok r
          ∧ ∀ j, a ≤ j → j < a + (retryLoop step delay (n + 1) a).attempts - 1 →
              ∃ e, step j = Except.error e)
      ∧ (∀ e, (retryLoop step delay (n + 1) a).result = Except.error e →
          (retryLoop step delay (n + 1) a).attempts = n + 1
          ∧ step (a + n) = Except.error e) := by
  intro n
  induction n with
  | zero =>
    intro a
    match h : step a with
    | Except.ok r =>
      refine ⟨?_, ?_, ?_, ?_, ?_⟩ <;> simp [retryLoop, h]
      · intro j h1 h2
        omega
    | Except.error e =>
      refine ⟨?_, ?_, ?_, ?_, ?_⟩ <;> simp [retryLoop, h]
  | succ m ih =>
    intro a
    match h : step a with
    | Except.ok r =>
      refine ⟨?_, ?_, ?_, ?_, ?_⟩ <;> simp [retryLoop, h]
      · intro j h1 h2
        omega
    | Except.error e =>
      have hrec := ih (a + 1)
      have hstep2 : retryLoop step delay (m + 1 + 1) a
          = match step a with
            | Except.ok r => ⟨Except.ok r, 1, []⟩
            | Except.error _ =>
              ⟨(retryLoop step delay (m + 1) (a + 1)).result,
               (retryLoop step delay (m + 1) (a + 1)).attempts + 1,
               Nat.max delay 1 :: (retryLoop step delay (m + 1) (a + 1)).sleeps⟩ := rfl
      have hunfold : retryLoop step delay (m + 1 + 1) a
          = ⟨(retryLoop step delay (m + 1) (a + 1)).result,
             (retryLoop step delay (m + 1) (a + 1)).attempts + 1,
             Nat.max delay 1 :: (retryLoop step delay (m + 1) (a + 1)).sleeps⟩ := by
        rw [hstep2, h]
      have hat : (retryLoop step delay (m + 1 + 1) a).attempts
          = (retryLoop step delay (m + 1) (a + 1)).attempts + 1 := by rw [hunfold]
      have hres : (retryLoop step delay (m + 1 + 1) a).result
          = (retryLoop step delay (m + 1) (a + 1)).result := by rw [hunfold]
      have hsl : (retryLoop step delay (m + 1 + 1) a).sleeps
          = Nat.max delay 1 :: (retryLoop step delay (m + 1) (a + 1)).sleeps := by rw [hunfold]
      refine ⟨?_, ?_, ?_, ?_, ?_⟩
      · have := hrec.1
        omega
      · rw [hsl, hat, List.length_cons]
        have := hrec.2.1
        omega
      · intro s hs
        rw [hsl] at hs
        rcases List.mem_cons.mp hs with h1 | h2
        · exact h1
        · exact hrec.2.2.1 s h2
      · intro r hr
        rw [hres] at hr
        obtain ⟨hstep, hprev⟩ := hrec.2.2.2.1 r hr
        constructor
        · rw [hat]
          have heq : a + ((retryLoop step delay (m + 1) (a + 1)).attempts + 1) - 1
              = a + 1 + (retryLoop step delay (m + 1) (a + 1)).attempts - 1 := by omega
          rw [heq]
          exact hstep
        · intro j hj1 hj2
          rw [hat] at hj2
          by_cases hja : j = a
          · exact ⟨e, hja ▸ h⟩
          · refine hprev j (by omega) (by omega)
      · intro e2 he2
        rw [hres] at he2
        obtain ⟨hat2, hstep3⟩ := hrec.2.2.2.2 e2 he2
        constructor
        · omega
        · have heq : a + (m + 1) = a + 1 + m := by omega
          rw [heq]
          exact hstep3

/-- C1 (counterexample). The claim says the retry wrapper attempts the
command up to `retries + 1` times for every `retries ≥ 0`; at `retries = 0`
an always-failing command is attempted 2 times, which exceeds `0 + 1`. -/
theorem run_with_retry_zero_retries_two_attempts :
    (run_with_retry_streaming "false" alwaysFailRaw 0 0).attempts = 2
    ∧ ¬ ((run_with_retry_streaming "false" alwaysFailRaw 0 0).attempts ≤ 0 + 1) := by
  decide

/-- C1 (amended). For every command, raw-outcome oracle, retries value and
delay, the retry wrapper makes at most `max retries 1 + 1` attempts; it
sleeps exactly once between consecutive attempts (never after the last), each
sleep being the delay clamped to at least 1 second; a success is the first
attempt that succeeds (all earlier attempts failed); and when the result is
an error, all `max retries 1 + 1` attempts were made and the error returned
is the last attempt's. In particular with `retries = 2` an always-failing
command is attempted exactly 3 times. -/
theorem run_with_retry_attempt_contract (command : String)
    (raw : Nat → Except String CommandResult) (retries delay : Nat) :
    (run_with_retry_streaming command raw retries delay).attempts ≤ Nat.max retries 1 + 1
    ∧ (run_with_retry_streaming command raw retries delay).sleeps.length + 1
        = (run_with_retry_streaming command raw retries delay).attempts
    ∧ (∀ s ∈ (run_with_retry_streaming command raw retries delay).sleeps, s = Nat.max delay 1)
    ∧ (∀ r, (run_with_retry_streaming command raw retries delay).result = Except.ok r →
        run_shell_internal command
            (raw ((run_with_retry_streaming command raw retries delay).attempts)) true
          = Except.ok r
        ∧ ∀ j, 1 ≤ j → j < (run_with_retry_streaming command raw retries delay).attempts →
            ∃ e, run_shell_internal command (raw j) true = Except.error e)
    ∧ (∀ e, (run_with_retry_streaming command raw retries delay).result = Except.error e →
        (run_with_retry_streaming command raw retries delay).attempts = Nat.max retries 1 + 1
        ∧ run_shell_internal command (raw (Nat.max retries 1 + 1)) true = Except.error e) := by
  have h := retryLoop_spec (fun i => run_shell_internal command (raw i) true) delay
    (Nat.max retries 1) 1
  have hs : run_with_retry_streaming command raw retries delay
      = retryLoop (fun i => run_shell_internal command (raw i) true) delay
          (Nat.max retries 1 + 1) 1 := rfl
  rw [hs]
  refine ⟨h.1, h.2.1, h.2.2.1, ?_, ?_⟩
  · intro r hr
    obtain ⟨hstep, hprev⟩ := h.2.2.2.1 r hr
    constructor
    · have hattempts :
          1 ≤ (retryLoop (fun i => run_shell_internal command (raw i) true) delay
            (Nat.max retries 1 + 1) 1).attempts := by
        have := h.2.1
        omega
      have : 1 + (retryLoop (fun i => run_shell_internal command (raw i) true) delay
          (Nat.max retries 1 + 1) 1).attempts - 1
          = (retryLoop (fun i => run_shell_internal command (raw i) true) delay
            (Nat.max retries 1 + 1) 1).attempts := by omega
      rw [this] at hstep
      exact hstep
    · intro j hj1 hj2
      exact hprev j hj1 (by omega)
  · intro e he
    obtain ⟨hat, hstep⟩ := h.2.2.2.2 e he
    refine ⟨hat, ?_⟩
    have : 1 + Nat.max retries 1 = Nat.max retries 1 + 1 := by omega
    rw [this] at hstep
    exact hstep

theorem rotate_month_key (k : String) (c : MonthlyFixCounter) :
    (rotate_if_needed k c).month_key = k := by
  unfold rotate_if_needed
  split
  · rfl
  · rename_i h
    exact not_ne_iff.mp h

theorem rotate_of_key_eq (k : String) (c : MonthlyFixCounter) (h : c.month_key = k) :
    rotate_if_needed k c = c := by
  unfold rotate_if_needed
  simp [h]

/-- C7: `record_monthly_fixed_pr` returns true exactly once per month key per
PR number: a first call for a number not yet counted this month inserts it
and returns true; a second call under the same key returns false; after a
month rollover (a different wall-clock key clears the set) the same number
is newly inserted again. -/
theorem record_eq (k : String) (c : MonthlyFixCounter) (n : Nat) :
    record_monthly_fixed_pr k c n =
      if n ∈ (rotate_if_needed k c).pr_numbers then (false, rotate_if_needed k c)
      else (true, { month_key := (rotate_if_needed k c).month_key
                    pr_numbers := n :: (rotate_if_needed k c).pr_numbers }) := rfl

theorem record_monthly_once_per_month (c : MonthlyFixCounter) (k k2 : String) (n : Nat)
    (h1 : n ∉ (rotate_if_needed k c).pr_numbers) (h2 : k2 ≠ k) :
    (record_monthly_fixed_pr k c n).1 = true
    ∧ (record_monthly_fixed_pr k (record_monthly_fixed_pr k c n).2 n).1 = false
    ∧ (record_monthly_fixed_pr k2
        (record_monthly_fixed_pr k (record_monthly_fixed_pr k c n).2 n).2 n).1 = true := by
  have hb1 : record_monthly_fixed_pr k c n
      = (true, ⟨k, n :: (rotate_if_needed k c).pr_numbers⟩) := by
    rw [record_eq, if_neg h1, rotate_month_key]
  have hrot1 : rotate_if_needed k
        (⟨k, n :: (rotate_if_needed k c).pr_numbers⟩ : MonthlyFixCounter)
      = ⟨k, n :: (rotate_if_needed k c).pr_numbers⟩ := rotate_of_key_eq k _ rfl
  have hrot2 : rotate_if_needed k2
        (⟨k, n :: (rotate_if_needed k c).pr_numbers⟩ : MonthlyFixCounter)
      = ⟨k2, []⟩ := by
    unfold rotate_if_needed
    simp [Ne.symm h2]
  have hb2 : record_monthly_fixed_pr k
        (⟨k, n :: (rotate_if_needed k c).pr_numbers⟩ : MonthlyFixCounter) n
      = (false, ⟨k, n :: (rotate_if_needed k c).pr_numbers⟩) := by
    rw [record_eq, hrot1, if_pos (List.mem_cons_self _ _)]
  have hb3 : record_monthly_fixed_pr k2
        (⟨k, n :: (rotate_if_needed k c).pr_numbers⟩ : MonthlyFixCounter) n
      = (true, ⟨k2, [n]⟩) := by
    rw [record_eq, hrot2, if_neg (List.not_mem_nil n)]
  refine ⟨by rw [hb1], ?_, ?_⟩
  · rw [hb1, hb2]
  · rw [hb1, hb2, hb3]

theorem record_monthly_once_witness :
    (record_monthly_fixed_pr "2025-12" ⟨"2025-12", []⟩ 7).1 = true :=
  (record_monthly_once_per_month ⟨"2025-12", []⟩ "2025-12" "2026-01" 7
    (by decide) (by decide)).1

/-- C3 (code-bug evidence): the `EngineState` struct models.rs declares is
fully determined by its processed-PR set and last-run timestamp — it carries
no per-month mapping, although shell.rs reads and writes
`state.monthly_fixed_pr_numbers_by_month` and the spec lists that mapping as
part of the durable state. -/
theorem engineState_has_only_processed_and_lastrun (s t : EngineState)
    (h1 : s.processed_pr_numbers = t.processed_pr_numbers)
    (h2 : s.last_run_at = t.last_run_at) : s = t := by
  cases s
  cases t
  simp_all

theorem engineState_fields_witness :
    (⟨[3], none⟩ : EngineState) = ⟨[3], none⟩ :=
  engineState_has_only_processed_and_lastrun ⟨[3], none⟩ ⟨[3], none⟩ rfl rfl

theorem append_log_log_lines (time : String) (snap : RunSnapshot) (msg : String) :
    (append_log time snap msg).log_lines
      = keepLast500 (snap.log_lines ++ [logLine time msg]) := by
  simp only [append_log, keepLast500]
  split
  · rfl
  · rename_i h
    have hz : (snap.log_lines ++ [logLine time msg]).length - 500 = 0 := by
      simp only [Nat.not_lt] at h
      omega
    rw [hz, List.drop_zero]

theorem append_log_report (time : String) (snap : RunSnapshot) (msg : String) :
    (append_log time snap msg).report = snap.report := by
  simp only [append_log]
  split <;> rfl

theorem append_log_status (time : String) (snap : RunSnapshot) (msg : String) :
    (append_log time snap msg).status = snap.status := by
  simp only [append_log]
  split <;> rfl

theorem append_log_stage (time : String) (snap : RunSnapshot) (msg : String) :
    (append_log time snap msg).stage = snap.stage := by
  simp only [append_log]
  split <;> rfl

theorem append_log_error_message (time : String) (snap : RunSnapshot) (msg : String) :
    (append_log time snap msg).error_message = snap.error_message := by
  simp only [append_log]
  split <;> rfl

theorem append_log_total_prs (time : String) (snap : RunSnapshot) (msg : String) :
    (append_log time snap msg).total_prs = snap.total_prs := by
  simp only [append_log]
  split <;> rfl

theorem keepLast500_length (l : List String) : (keepLast500 l).length ≤ 500 := by
  unfold keepLast500
  rw [List.length_drop]
  omega

theorem keepLast500_of_le (l : List String) (h : l.length ≤ 500) : keepLast500 l = l := by
  unfold keepLast500
  have hz : l.length - 500 = 0 := by omega
  rw [hz, List.drop_zero]

theorem keepLast500_append (a b : List String) :
    keepLast500 (keepLast500 a ++ b) = keepLast500 (a ++ b) := by
  unfold keepLast500
  rw [List.drop_append_eq_append_drop, List.drop_append_eq_append_drop, List.drop_drop]
  rw [List.length_append, List.length_append, List.length_drop]
  have h1 : a.length - 500 + (a.length - (a.length - 500) + b.length - 500)
      = a.length + b.length - 500 := by omega
  have h2 : a.length - (a.length - 500) + b.length - 500 - (a.length - (a.length - 500))
      = a.length + b.length - 500 - a.length := by omega
  rw [h1, h2]

theorem append_log_fold (time : String) (msgs : List String) :
    ∀ snap : RunSnapshot, snap.log_lines.length ≤ 500 →
      (msgs.foldl (append_log time) snap).log_lines
        = keepLast500 (snap.log_lines ++ msgs.map (logLine time)) := by
  induction msgs with
  | nil =>
    intro snap h
    rw [List.foldl_nil, List.map_nil, List.append_nil, keepLast500_of_le _ h]
  | cons m ms ih =>
    intro snap h
    rw [List.foldl_cons]
    have h1 := append_log_log_lines time snap m
    have h2 : (append_log time snap m).log_lines.length ≤ 500 := by
      rw [h1]
      exact keepLast500_length _
    rw [ih (append_log time snap m) h2, h1, keepLast500_append, List.map_cons]
    congr 1
    rw [List.append_assoc, List.singleton_append]

/-- C6 (amended): for every sequence of appends to a snapshot whose log
already respects the bound, the log after the appends is exactly the last
500 of all entries in order (the oldest dropped first), so it never exceeds
500 entries; in particular, appending 501 lines to an empty log drops
exactly the oldest one and the first remaining entry is the 2nd appended. -/
theorem append_log_bounded_spec (time : String) (msgs : List String) (snap : RunSnapshot)
    (h : snap.log_lines.length ≤ 500) :
    (msgs.foldl (append_log time) snap).log_lines
      = (snap.log_lines ++ msgs.map (logLine time)).drop
          ((snap.log_lines.length + msgs.length) - 500)
    ∧ (msgs.foldl (append_log time) snap).log_lines.length ≤ 500 := by
  have h1 := append_log_fold time msgs snap h
  constructor
  · rw [h1]
    unfold keepLast500
    rw [List.length_append, List.length_map]
  · rw [h1]
    exact keepLast500_length _

theorem append_log_bounded_witness :
    (["a"].foldl (append_log "t") defaultRunSnapshot).log_lines.length ≤ 500 :=
  (append_log_bounded_spec "t" ["a"] defaultRunSnapshot (by decide)).2

/-- C6 (counterexample): appending the 501 lines of `msgs501` to an empty
log leaves "m1" — the 2nd appended line — first, not the 501st appended
("x") as the claim states. -/
theorem append_log_501_first_is_second :
    ((msgs501.foldl (append_log "t") defaultRunSnapshot).log_lines.head?
        = some (logLine "t" "m1"))
    ∧ ¬ ((msgs501.foldl (append_log "t") defaultRunSnapshot).log_lines.head?
        = some (logLine "t" "x")) := by
  have h := append_log_fold "t" msgs501 defaultRunSnapshot (by decide)
  have hkeep : keepLast500 (defaultRunSnapshot.log_lines ++ msgs501.map (logLine "t"))
      = logLine "t" "m1" :: (List.replicate 499 "x").map (logLine "t") := by
    unfold keepLast500
    simp only [defaultRunSnapshot, List.nil_append, msgs501, List.map_cons,
      List.length_cons, List.length_map, List.length_replicate]
    norm_num
  rw [h, hkeep]
  constructor
  · rfl
  · intro hcontra
    have : logLine "t" "m1" = logLine "t" "x" := by
      simpa using hcontra
    simp [logLine] at this

theorem replaceAllFuel_irrel (p0 : Char) (ps rep : List Char) :
    ∀ f1 f2 s, s.length ≤ f1 → s.length ≤ f2 →
      replaceAllFuel p0 ps rep f1 s = replaceAllFuel p0 ps rep f2 s := by
  intro f1
  induction f1 with
  | zero =>
    intro f2 s h1 h2
    have hnil : s = [] := List.eq_nil_of_length_eq_zero (by omega)
    subst hnil
    cases f2 <;> rfl
  | succ m ih =>
    intro f2 s h1 h2
    match s with
    | [] => cases f2 <;> rfl
    | c :: rest =>
      match f2 with
      | 0 => simp at h2
      | g + 1 =>
        simp only [replaceAllFuel]
        split
        · have hd : (rest.drop ps.length).length ≤ m := by
            rw [List.length_drop]
            simp at h1
            omega
          have hd2 : (rest.drop ps.length).length ≤ g := by
            rw [List.length_drop]
            simp at h2
            omega
          rw [ih g _ hd hd2]
        · have hr : rest.length ≤ m := by simp at h1; omega
          have hr2 : rest.length ≤ g := by simp at h2; omega
          rw [ih g rest hr hr2]

theorem listReplace_skip (p0 : Char) (ps rep : List Char) :
    ∀ a b, p0 ∉ a → listReplace p0 ps rep (a ++ b) = a ++ listReplace p0 ps rep b := by
  intro a
  induction a with
  | nil => intro b _; rfl
  | cons c a2 ih =>
    intro b hmem
    have hc : ¬ (p0 = c) := by
      intro he
      exact hmem (he ▸ List.mem_cons_self c a2)
    have hpre : (p0 :: ps).isPrefixOf (c :: (a2 ++ b)) = false := by
      rw [List.isPrefixOf_cons₂]
      simp [hc]
    show replaceAllFuel p0 ps rep (c :: (a2 ++ b)).length (c :: (a2 ++ b))
        = c :: a2 ++ listReplace p0 ps rep b
    simp only [List.length_cons, replaceAllFuel, hpre]
    simp only [Bool.false_eq_true, if_false]
    have hrec := ih b (fun hm => hmem (List.mem_cons_of_mem c hm))
    unfold listReplace at hrec
    rw [hrec]
    rfl

theorem listReplace_head_match (p0 : Char) (ps rep b : List Char) :
    listReplace p0 ps rep ((p0 :: ps) ++ b) = rep ++ listReplace p0 ps rep b := by
  have hpre : (p0 :: ps).isPrefixOf ((p0 :: ps) ++ b) = true := by
    rw [List.isPrefixOf_iff_prefix]
    exact List.prefix_append _ _
  show replaceAllFuel p0 ps rep ((p0 :: ps) ++ b).length ((p0 :: ps) ++ b)
      = rep ++ listReplace p0 ps rep b
  rw [List.cons_append] at hpre ⊢
  simp only [List.length_cons, replaceAllFuel, hpre, if_true]
  rw [List.drop_left]
  have hirr := replaceAllFuel_irrel p0 ps rep (ps ++ b).length b.length b
    (by rw [List.length_append]; omega) (le_refl _)
  rw [hirr]
  rfl

theorem replaceAllFuel_no_match (p0 : Char) (ps rep : List Char) :
    ∀ f s, hasSubstrL (p0 :: ps) s = false → replaceAllFuel p0 ps rep f s = s := by
  intro f
  induction f with
  | zero => intro s _; rfl
  | succ m ih =>
    intro s h
    match s with
    | [] => rfl
    | c :: rest =>
      simp only [hasSubstrL, Bool.or_eq_false_iff] at h
      simp only [replaceAllFuel, h.1]
      simp only [Bool.false_eq_true, if_false]
      rw [ih rest h.2]

theorem mem_replaceAllFuel (p0 : Char) (ps rep : List Char) :
    ∀ f s c, c ∈ replaceAllFuel p0 ps rep f s → c ∈ s ∨ c ∈ rep := by
  intro f
  induction f with
  | zero => intro s c h; exact Or.inl h
  | succ m ih =>
    intro s c h
    match s with
    | [] => exact Or.inl h
    | d :: rest =>
      by_cases hp : (p0 :: ps).isPrefixOf (d :: rest) = true
      · simp only [replaceAllFuel, hp, if_true] at h
        rcases List.mem_append.mp h with h1 | h2
        · exact Or.inr h1
        · rcases ih _ c h2 with h3 | h4
          · exact Or.inl (List.mem_cons_of_mem d (List.mem_of_mem_drop h3))
          · exact Or.inr h4
      · have hp2 : (p0 :: ps).isPrefixOf (d :: rest) = false :=
          Bool.eq_false_iff.mpr hp
        simp only [replaceAllFuel, hp2, Bool.false_eq_true, if_false] at h
        rcases List.mem_cons.mp h with h1 | h2
        · exact Or.inl (h1 ▸ List.mem_cons_self _ _)
        · rcases ih rest c h2 with h3 | h4
          · exact Or.inl (List.mem_cons_of_mem _ h3)
          · exact Or.inr h4

theorem listReplace_not_mem (p0 : Char) (ps rep s : List Char) (h : p0 ∉ s) :
    listReplace p0 ps rep s = s := by
  have h2 := listReplace_skip p0 ps rep s [] h
  rw [List.append_nil] at h2
  rw [h2]
  show s ++ ([] : List Char) = s
  rw [List.append_nil]

theorem string_mk_data (s : String) : String.mk s.data = s := by
  cases s
  rfl

theorem rustReplace_no_match (s pat rep : String)
    (h : hasSubstrL pat.data s.data = false) : rustReplace s pat rep = s := by
  unfold rustReplace
  split
  · rfl
  · rename_i p0 ps hpat
    rw [hpat] at h
    unfold listReplace
    rw [replaceAllFuel_no_match p0 ps rep.data s.data.length s.data h]

theorem rustReplace_self (pat rep : String) (p0 : Char) (ps : List Char)
    (hpat : pat.data = p0 :: ps) : rustReplace pat pat rep = rep := by
  unfold rustReplace
  split
  · rename_i hnil
    rw [hnil] at hpat
    simp at hpat
  · rename_i q0 qs hq
    have hq2 : pat.data = q0 :: qs := hq
    have hcast : listReplace q0 qs rep.data pat.data = rep.data := by
      rw [hq2]
      have hnil : (q0 :: qs) = (q0 :: qs) ++ [] := by rw [List.append_nil]
      rw [hnil, listReplace_head_match]
      show rep.data ++ ([] : List Char) = rep.data
      rw [List.append_nil]
    rw [hcast]

theorem rustReplace_brace_unchanged (s pat rep : String)
    (hpat : pat.data = braceChar :: pat.data.tail) (h : braceChar ∉ s.data) :
    rustReplace s pat rep = s := by
  unfold rustReplace
  split
  · rfl
  · rename_i p0 ps hq
    have hp0 : p0 = braceChar := by
      rw [hq] at hpat
      exact (List.cons.injEq _ _ _ _ ▸ hpat).1
  
    unfold listReplace
    rw [hp0]
    rw [replaceAllFuel_irrel braceChar ps rep.data s.data.length s.data.length s.data
      (le_refl _) (le_refl _)]
    have hlr := listReplace_not_mem braceChar ps rep.data s.data h
    unfold listReplace at hlr
    rw [hlr]

theorem sh_quote_data (v : String) :
    (sh_quote v).data
      = "'".data ++ listReplace (Char.ofNat 39) [] ("'\\''".data) v.data ++ "'".data := rfl

theorem sh_quote_braceFree (v : String) (h : braceChar ∉ v.data) :
    braceChar ∉ (sh_quote v).data := by
  intro hmem
  rw [sh_quote_data] at hmem
  rcases List.mem_append.mp hmem with h1 | h2
  · rcases List.mem_append.mp h1 with h3 | h4
    · exact absurd h3 (by decide)
    · rcases mem_replaceAllFuel (Char.ofNat 39) [] ("'\\''".data) v.data.length v.data
          braceChar h4 with h5 | h6
      · exact h h5
      · exact absurd h6 (by decide)
  · exact absurd h2 (by decide)

theorem isPrefixOf_append_false (pat a b : List Char)
    (h1 : pat.isPrefixOf a = false) (h2 : a.isPrefixOf pat = false) :
    pat.isPrefixOf (a ++ b) = false := by
  by_contra h
  have hp : pat <+: a ++ b := by
    rw [← List.isPrefixOf_iff_prefix]
    cases hx : pat.isPrefixOf (a ++ b)
    · exact absurd hx h
    · rfl
  rcases List.prefix_or_prefix_of_prefix hp (List.prefix_append a b) with hc | hc
  · rw [List.isPrefixOf_iff_prefix.mpr hc] at h1
    exact absurd h1 (by simp)
  · rw [List.isPrefixOf_iff_prefix.mpr hc] at h2
    exact absurd h2 (by simp)

theorem listReplace_noOverlap (p0 : Char) (ps rep : List Char) :
    ∀ a b, noOverlap (p0 :: ps) a = true →
      listReplace p0 ps rep (a ++ b) = a ++ listReplace p0 ps rep b := by
  intro a
  induction a with
  | nil =>
    intro b _
    rfl
  | cons c a2 ih =>
    intro b hno
    simp only [noOverlap, Bool.and_eq_true, Bool.not_eq_true'] at hno
    obtain ⟨⟨h1, h2⟩, h3⟩ := hno
    have hpre : (p0 :: ps).isPrefixOf ((c :: a2) ++ b) = false :=
      isPrefixOf_append_false (p0 :: ps) (c :: a2) b h1 h2
    rw [List.cons_append] at hpre
    show replaceAllFuel p0 ps rep (c :: (a2 ++ b)).length (c :: (a2 ++ b))
        = c :: a2 ++ listReplace p0 ps rep b
    simp only [List.length_cons, replaceAllFuel, hpre]
    simp only [Bool.false_eq_true, if_false]
    have hrec := ih b h3
    unfold listReplace at hrec
    rw [hrec]
    rfl

theorem noOverlap_of_not_mem (p0 : Char) (ps : List Char) :
    ∀ s, p0 ∉ s → noOverlap (p0 :: ps) s = true := by
  intro s
  induction s with
  | nil =>
    intro _
    rfl
  | cons c rest ih =>
    intro h
    have hc : ¬ (p0 = c) := fun he => h (he ▸ List.mem_cons_self c rest)
    have hc2 : ¬ (c = p0) := fun he => hc he.symm
    simp only [noOverlap, Bool.and_eq_true, Bool.not_eq_true']
    refine ⟨⟨?_, ?_⟩, ih (fun hm => h (List.mem_cons_of_mem c hm))⟩
    · rw [List.isPrefixOf_cons₂]
      simp [hc]
    · rw [List.isPrefixOf_cons₂]
      simp [hc2]

theorem listReplace_pieces (p0 : Char) (ps rep : List Char) (f g : TemplatePiece → String) :
    ∀ pieces : List TemplatePiece,
      (∀ p ∈ pieces, ((f p).data = p0 :: ps ∧ (g p).data = rep)
        ∨ (f p = g p ∧ noOverlap (p0 :: ps) (f p).data = true)) →
      listReplace p0 ps rep (concatPieces f pieces) = concatPieces g pieces := by
  intro pieces
  induction pieces with
  | nil =>
    intro _
    rfl
  | cons p rest ih =>
    intro h
    have hp := h p (List.mem_cons_self p rest)
    have hrest := fun q hq => h q (List.mem_cons_of_mem p hq)
    show listReplace p0 ps rep ((f p).data ++ concatPieces f rest)
        = (g p).data ++ concatPieces g rest
    rcases hp with ⟨hf, hg⟩ | ⟨hfg, hno⟩
    · rw [hf, listReplace_head_match, ih hrest, hg]
    · rw [listReplace_noOverlap p0 ps rep (f p).data (concatPieces f rest) hno,
        ih hrest, hfg]

theorem rustReplace_pieces (pat rep : String) (p0 : Char) (ps : List Char)
    (hpat : pat.data = p0 :: ps) (f g : TemplatePiece → String)
    (pieces : List TemplatePiece)
    (h : ∀ p ∈ pieces, ((f p).data = p0 :: ps ∧ (g p).data = rep.data)
      ∨ (f p = g p ∧ noOverlap (p0 :: ps) (f p).data = true)) :
    rustReplace (String.mk (concatPieces f pieces)) pat rep
      = String.mk (concatPieces g pieces) := by
  unfold rustReplace
  split
  · rename_i hnil
    rw [hnil] at hpat
    simp at hpat
  · rename_i q0 qs hq
    rw [hpat] at hq
    obtain ⟨hq0, hqs⟩ := List.cons.inj hq
    subst hq0
    subst hqs
    show String.mk (listReplace p0 ps rep.data (concatPieces f pieces))
        = String.mk (concatPieces g pieces)
    rw [listReplace_pieces p0 ps rep.data f g pieces h]

theorem pieceStage_zero (pr : OpenPr) (settings : AppSettings) (rp : String) :
    pieceStage pr settings rp 0 = pieceText := by
  funext p
  cases p <;> rfl

theorem pieceStage_eight (pr : OpenPr) (settings : AppSettings) (rp : String) :
    pieceStage pr settings rp 8 = pieceValue pr settings rp := by
  funext p
  cases p <;> rfl

/-- C5 (amended): template expansion performs eight chained `replace` calls
in source order, substituting every occurrence of each placeholder of the
fixed set: the PR number placeholder is replaced by the bare decimal string
of the number — not shell-escaped — while the title, URL, branch, default
branch, repository path (both `REPO_PATH` and `WORK_DIR`) and report file
path placeholders are each replaced by the shell-escaped value `sh_quote` of
the corresponding input. For every template assembled from placeholder
occurrences and brace-free literal text, and for brace-free substituted
values (a value containing `{` can itself be rewritten by a later replace
of the chain, so escaping is not guaranteed for such values), the result is
the template with each placeholder occurrence simultaneously replaced by its
substituted value. -/
theorem expand_template_spec (pr : OpenPr) (settings : AppSettings) (rp : String)
    (pieces : List TemplatePiece)
    (hlits : ∀ s, TemplatePiece.lit s ∈ pieces → braceFree s)
    (hnum : braceFree (toString pr.number)) (ht : braceFree pr.title)
    (hu : braceFree pr.url) (hb : braceFree pr.head_ref_name)
    (hd : braceFree settings.default_branch) (hrp : braceFree settings.repo_path) :
    expand_template (renderTemplate pieces) pr settings rp
      = substTemplate pr settings rp pieces := by
  have h1 : rustReplace (String.mk (concatPieces (pieceStage pr settings rp 0) pieces))
      PH_PR_NUMBER (toString pr.number)
      = String.mk (concatPieces (pieceStage pr settings rp 1) pieces) := by
    refine rustReplace_pieces PH_PR_NUMBER (toString pr.number) braceChar
      ("\x7bPR_NUMBER\x7d\x7d".data) rfl _ _ pieces ?_
    intro p hp
    cases p with
    | lit s => exact Or.inr ⟨rfl, noOverlap_of_not_mem braceChar _ s.data (hlits s hp)⟩
    | number => exact Or.inl ⟨rfl, rfl⟩
    | title =>
      refine Or.inr ⟨rfl, ?_⟩
      show noOverlap (braceChar :: "\x7bPR_NUMBER\x7d\x7d".data) PH_PR_TITLE.data = true
      decide
    | url =>
      refine Or.inr ⟨rfl, ?_⟩
      show noOverlap (braceChar :: "\x7bPR_NUMBER\x7d\x7d".data) PH_PR_URL.data = true
      decide
    | branch =>
      refine Or.inr ⟨rfl, ?_⟩
      show noOverlap (braceChar :: "\x7bPR_NUMBER\x7d\x7d".data) PH_PR_BRANCH.data = true
      decide
    | defaultBranch =>
      refine Or.inr ⟨rfl, ?_⟩
      show noOverlap (braceChar :: "\x7bPR_NUMBER\x7d\x7d".data) PH_DEFAULT_BRANCH.data = true
      decide
    | repoPath =>
      refine Or.inr ⟨rfl, ?_⟩
      show noOverlap (braceChar :: "\x7bPR_NUMBER\x7d\x7d".data) PH_REPO_PATH.data = true
      decide
    | workDir =>
      refine Or.inr ⟨rfl, ?_⟩
      show noOverlap (braceChar :: "\x7bPR_NUMBER\x7d\x7d".data) PH_WORK_DIR.data = true
      decide
    | reportPath =>
      refine Or.inr ⟨rfl, ?_⟩
      show noOverlap (braceChar :: "\x7bPR_NUMBER\x7d\x7d".data) PH_REPORT_PATH.data = true
      decide
  have h2 : rustReplace (String.mk (concatPieces (pieceStage pr settings rp 1) pieces))
      PH_PR_TITLE (sh_quote pr.title)
      = String.mk (concatPieces (pieceStage pr settings rp 2) pieces) := by
    refine rustReplace_pieces PH_PR_TITLE (sh_quote pr.title) braceChar
      ("\x7bPR_TITLE\x7d\x7d".data) rfl _ _ pieces ?_
    intro p hp
    cases p with
    | lit s => exact Or.inr ⟨rfl, noOverlap_of_not_mem braceChar _ s.data (hlits s hp)⟩
    | number => exact Or.inr ⟨rfl, noOverlap_of_not_mem braceChar _ _ hnum⟩
    | title => exact Or.inl ⟨rfl, rfl⟩
    | url =>
      refine Or.inr ⟨rfl, ?_⟩
      show noOverlap (braceChar :: "\x7bPR_TITLE\x7d\x7d".data) PH_PR_URL.data = true
      decide
    | branch =>
      refine Or.inr ⟨rfl, ?_⟩
      show noOverlap (braceChar :: "\x7bPR_TITLE\x7d\x7d".data) PH_PR_BRANCH.data = true
      decide
    | defaultBranch =>
      refine Or.inr ⟨rfl, ?_⟩
      show noOverlap (braceChar :: "\x7bPR_TITLE\x7d\x7d".data) PH_DEFAULT_BRANCH.data = true
      decide
    | repoPath =>
      refine Or.inr ⟨rfl, ?_⟩
      show noOverlap (braceChar :: "\x7bPR_TITLE\x7d\x7d".data) PH_REPO_PATH.data = true
      decide
    | workDir =>
      refine Or.inr ⟨rfl, ?_⟩
      show noOverlap (braceChar :: "\x7bPR_TITLE\x7d\x7d".data) PH_WORK_DIR.data = true
      decide
    | reportPath =>
      refine Or.inr ⟨rfl, ?_⟩
      show noOverlap (braceChar :: "\x7bPR_TITLE\x7d\x7d".data) PH_REPORT_PATH.data = true
      decide
  have h3 : rustReplace (String.mk (concatPieces (pieceStage pr settings rp 2) pieces))
      PH_PR_URL (sh_quote pr.url)
      = String.mk (concatPieces (pieceStage pr settings rp 3) pieces) := by
    refine rustReplace_pieces PH_PR_URL (sh_quote pr.url) braceChar
      ("\x7bPR_URL\x7d\x7d".data) rfl _ _ pieces ?_
    intro p hp
    cases p with
    | lit s => exact Or.inr ⟨rfl, noOverlap_of_not_mem braceChar _ s.data (hlits s hp)⟩
    | number => exact Or.inr ⟨rfl, noOverlap_of_not_mem braceChar _ _ hnum⟩
    | title => exact Or.inr ⟨rfl, noOverlap_of_not_mem braceChar _ _ (sh_quote_braceFree pr.title ht)⟩
    | url => exact Or.inl ⟨rfl, rfl⟩
    | branch =>
      refine Or.inr ⟨rfl, ?_⟩
      show noOverlap (braceChar :: "\x7bPR_URL\x7d\x7d".data) PH_PR_BRANCH.data = true
      decide
    | defaultBranch =>
      refine Or.inr ⟨rfl, ?_⟩
      show noOverlap (braceChar :: "\x7bPR_URL\x7d\x7d".data) PH_DEFAULT_BRANCH.data = true
      decide
    | repoPath =>
      refine Or.inr ⟨rfl, ?_⟩
      show noOverlap (braceChar :: "\x7bPR_URL\x7d\x7d".data) PH_REPO_PATH.data = true
      decide
    | workDir =>
      refine Or.inr ⟨rfl, ?_⟩
      show noOverlap (braceChar :: "\x7bPR_URL\x7d\x7d".data) PH_WORK_DIR.data = true
      decide
    | reportPath =>
      refine Or.inr ⟨rfl, ?_⟩
      show noOverlap (braceChar :: "\x7bPR_URL\x7d\x7d".data) PH_REPORT_PATH.data = true
      decide
  have h4 : rustReplace (String.mk (concatPieces (pieceStage pr settings rp 3) pieces))
      PH_PR_BRANCH (sh_quote pr.head_ref_name)
      = String.mk (concatPieces (pieceStage pr settings rp 4) pieces) := by
    refine rustReplace_pieces PH_PR_BRANCH (sh_quote pr.head_ref_name) braceChar
      ("\x7bPR_BRANCH\x7d\x7d".data) rfl _ _ pieces ?_
    intro p hp
    cases p with
    | lit s => exact Or.inr ⟨rfl, noOverlap_of_not_mem braceChar _ s.data (hlits s hp)⟩
    | number => exact Or.inr ⟨rfl, noOverlap_of_not_mem braceChar _ _ hnum⟩
    | title => exact Or.inr ⟨rfl, noOverlap_of_not_mem braceChar _ _ (sh_quote_braceFree pr.title ht)⟩
    | url => exact Or.inr ⟨rfl, noOverlap_of_not_mem braceChar _ _ (sh_quote_braceFree pr.url hu)⟩
    | branch => exact Or.inl ⟨rfl, rfl⟩
    | defaultBranch =>
      refine Or.inr ⟨rfl, ?_⟩
      show noOverlap (braceChar :: "\x7bPR_BRANCH\x7d\x7d".data) PH_DEFAULT_BRANCH.data = true
      decide
    | repoPath =>
      refine Or.inr ⟨rfl, ?_⟩
      show noOverlap (braceChar :: "\x7bPR_BRANCH\x7d\x7d".data) PH_REPO_PATH.data = true
      decide
    | workDir =>
      refine Or.inr ⟨rfl, ?_⟩
      show noOverlap (braceChar :: "\x7bPR_BRANCH\x7d\x7d".data) PH_WORK_DIR.data = true
      decide
    | reportPath =>
      refine Or.inr ⟨rfl, ?_⟩
      show noOverlap (braceChar :: "\x7bPR_BRANCH\x7d\x7d".data) PH_REPORT_PATH.data = true
      decide
  have h5 : rustReplace (String.mk (concatPieces (pieceStage pr settings rp 4) pieces))
      PH_DEFAULT_BRANCH (sh_quote settings.default_branch)
      = String.mk (concatPieces (pieceStage pr settings rp 5) pieces) := by
    refine rustReplace_pieces PH_DEFAULT_BRANCH (sh_quote settings.default_branch) braceChar
      ("\x7bDEFAULT_BRANCH\x7d\x7d".data) rfl _ _ pieces ?_
    intro p hp
    cases p with
    | lit s => exact Or.inr ⟨rfl, noOverlap_of_not_mem braceChar _ s.data (hlits s hp)⟩
    | number => exact Or.inr ⟨rfl, noOverlap_of_not_mem braceChar _ _ hnum⟩
    | title => exact Or.inr ⟨rfl, noOverlap_of_not_mem braceChar _ _ (sh_quote_braceFree pr.title ht)⟩
    | url => exact Or.inr ⟨rfl, noOverlap_of_not_mem braceChar _ _ (sh_quote_braceFree pr.url hu)⟩
    | branch => exact Or.inr ⟨rfl, noOverlap_of_not_mem braceChar _ _ (sh_quote_braceFree pr.head_ref_name hb)⟩
    | defaultBranch => exact Or.inl ⟨rfl, rfl⟩
    | repoPath =>
      refine Or.inr ⟨rfl, ?_⟩
      show noOverlap (braceChar :: "\x7bDEFAULT_BRANCH\x7d\x7d".data) PH_REPO_PATH.data = true
      decide
    | workDir =>
      refine Or.inr ⟨rfl, ?_⟩
      show noOverlap (braceChar :: "\x7bDEFAULT_BRANCH\x7d\x7d".data) PH_WORK_DIR.data = true
      decide
    | reportPath =>
      refine Or.inr ⟨rfl, ?_⟩
      show noOverlap (braceChar :: "\x7bDEFAULT_BRANCH\x7d\x7d".data) PH_REPORT_PATH.data = true
      decide
  have h6 : rustReplace (String.mk (concatPieces (pieceStage pr settings rp 5) pieces))
      PH_REPO_PATH (sh_quote settings.repo_path)
      = String.mk (concatPieces (pieceStage pr settings rp 6) pieces) := by
    refine rustReplace_pieces PH_REPO_PATH (sh_quote settings.repo_path) braceChar
      ("\x7bREPO_PATH\x7d\x7d".data) rfl _ _ pieces ?_
    intro p hp
    cases p with
    | lit s => exact Or.inr ⟨rfl, noOverlap_of_not_mem braceChar _ s.data (hlits s hp)⟩
    | number => exact Or.inr ⟨rfl, noOverlap_of_not_mem braceChar _ _ hnum⟩
    | title => exact Or.inr ⟨rfl, noOverlap_of_not_mem braceChar _ _ (sh_quote_braceFree pr.title ht)⟩
    | url => exact Or.inr ⟨rfl, noOverlap_of_not_mem braceChar _ _ (sh_quote_braceFree pr.url hu)⟩
    | branch => exact Or.inr ⟨rfl, noOverlap_of_not_mem braceChar _ _ (sh_quote_braceFree pr.head_ref_name hb)⟩
    | defaultBranch => exact Or.inr ⟨rfl, noOverlap_of_not_mem braceChar _ _ (sh_quote_braceFree settings.default_branch hd)⟩
    | repoPath => exact Or.inl ⟨rfl, rfl⟩
    | workDir =>
      refine Or.inr ⟨rfl, ?_⟩
      show noOverlap (braceChar :: "\x7bREPO_PATH\x7d\x7d".data) PH_WORK_DIR.data = true
      decide
    | reportPath =>
      refine Or.inr ⟨rfl, ?_⟩
      show noOverlap (braceChar :: "\x7bREPO_PATH\x7d\x7d".data) PH_REPORT_PATH.data = true
      decide
  have h7 : rustReplace (String.mk (concatPieces (pieceStage pr settings rp 6) pieces))
      PH_WORK_DIR (sh_quote settings.repo_path)
      = String.mk (concatPieces (pieceStage pr settings rp 7) pieces) := by
    refine rustReplace_pieces PH_WORK_DIR (sh_quote settings.repo_path) braceChar
      ("\x7bWORK_DIR\x7d\x7d".data) rfl _ _ pieces ?_
    intro p hp
    cases p with
    | lit s => exact Or.inr ⟨rfl, noOverlap_of_not_mem braceChar _ s.data (hlits s hp)⟩
    | number => exact Or.inr ⟨rfl, noOverlap_of_not_mem braceChar _ _ hnum⟩
    | title => exact Or.inr ⟨rfl, noOverlap_of_not_mem braceChar _ _ (sh_quote_braceFree pr.title ht)⟩
    | url => exact Or.inr ⟨rfl, noOverlap_of_not_mem braceChar _ _ (sh_quote_braceFree pr.url hu)⟩
    | branch => exact Or.inr ⟨rfl, noOverlap_of_not_mem braceChar _ _ (sh_quote_braceFree pr.head_ref_name hb)⟩
    | defaultBranch => exact Or.inr ⟨rfl, noOverlap_of_not_mem braceChar _ _ (sh_quote_braceFree settings.default_branch hd)⟩
    | repoPath => exact Or.inr ⟨rfl, noOverlap_of_not_mem braceChar _ _ (sh_quote_braceFree settings.repo_path hrp)⟩
    | workDir => exact Or.inl ⟨rfl, rfl⟩
    | reportPath =>
      refine Or.inr ⟨rfl, ?_⟩
      show noOverlap (braceChar :: "\x7bWORK_DIR\x7d\x7d".data) PH_REPORT_PATH.data = true
      decide
  have h8 : rustReplace (String.mk (concatPieces (pieceStage pr settings rp 7) pieces))
      PH_REPORT_PATH (sh_quote rp)
      = String.mk (concatPieces (pieceStage pr settings rp 8) pieces) := by
    refine rustReplace_pieces PH_REPORT_PATH (sh_quote rp) braceChar
      ("\x7bREPORT_PATH\x7d\x7d".data) rfl _ _ pieces ?_
    intro p hp
    cases p with
    | lit s => exact Or.inr ⟨rfl, noOverlap_of_not_mem braceChar _ s.data (hlits s hp)⟩
    | number => exact Or.inr ⟨rfl, noOverlap_of_not_mem braceChar _ _ hnum⟩
    | title => exact Or.inr ⟨rfl, noOverlap_of_not_mem braceChar _ _ (sh_quote_braceFree pr.title ht)⟩
    | url => exact Or.inr ⟨rfl, noOverlap_of_not_mem braceChar _ _ (sh_quote_braceFree pr.url hu)⟩
    | branch => exact Or.inr ⟨rfl, noOverlap_of_not_mem braceChar _ _ (sh_quote_braceFree pr.head_ref_name hb)⟩
    | defaultBranch => exact Or.inr ⟨rfl, noOverlap_of_not_mem braceChar _ _ (sh_quote_braceFree settings.default_branch hd)⟩
    | repoPath => exact Or.inr ⟨rfl, noOverlap_of_not_mem braceChar _ _ (sh_quote_braceFree settings.repo_path hrp)⟩
    | workDir => exact Or.inr ⟨rfl, noOverlap_of_not_mem braceChar _ _ (sh_quote_braceFree settings.repo_path hrp)⟩
    | reportPath => exact Or.inl ⟨rfl, rfl⟩
  show rustReplace (rustReplace (rustReplace (rustReplace (rustReplace (rustReplace
      (rustReplace (rustReplace (renderTemplate pieces)
        PH_PR_NUMBER (toString pr.number))
        PH_PR_TITLE (sh_quote pr.title))
        PH_PR_URL (sh_quote pr.url))
        PH_PR_BRANCH (sh_quote pr.head_ref_name))
        PH_DEFAULT_BRANCH (sh_quote settings.default_branch))
        PH_REPO_PATH (sh_quote settings.repo_path))
        PH_WORK_DIR (sh_quote settings.repo_path))
        PH_REPORT_PATH (sh_quote rp)
      = substTemplate pr settings rp pieces
  unfold renderTemplate substTemplate
  rw [← pieceStage_zero pr settings rp, h1, h2, h3, h4, h5, h6, h7, h8,
    pieceStage_eight pr settings rp]

theorem expand_template_spec_witness :
    expand_template (renderTemplate [TemplatePiece.lit "echo ", TemplatePiece.title,
        TemplatePiece.lit " ", TemplatePiece.number]) prC5 settingsBase "/rep"
      = substTemplate prC5 settingsBase "/rep" [TemplatePiece.lit "echo ",
          TemplatePiece.title, TemplatePiece.lit " ", TemplatePiece.number]
    ∧ renderTemplate [TemplatePiece.lit "echo ", TemplatePiece.title,
        TemplatePiece.lit " ", TemplatePiece.number]
      = "echo \x7b\x7bPR_TITLE\x7d\x7d \x7b\x7bPR_NUMBER\x7d\x7d"
    ∧ substTemplate prC5 settingsBase "/rep" [TemplatePiece.lit "echo ",
        TemplatePiece.title, TemplatePiece.lit " ", TemplatePiece.number]
      = "echo " ++ sh_quote "t" ++ " " ++ "5" := by
  refine ⟨expand_template_spec prC5 settingsBase "/rep"
    [TemplatePiece.lit "echo ", TemplatePiece.title, TemplatePiece.lit " ",
      TemplatePiece.number]
    ?_ (by decide) (by decide) (by decide) (by decide) (by decide) (by decide),
    by decide, by decide⟩
  intro s hs
  simp only [List.mem_cons, List.not_mem_nil, or_false] at hs
  rcases hs with h | h | h | h
  · rw [TemplatePiece.lit.injEq] at h
    subst h
    decide
  · exact TemplatePiece.noConfusion h
  · rw [TemplatePiece.lit.injEq] at h
    subst h
    decide
  · exact TemplatePiece.noConfusion h

/-- C5 (counterexample): the PR number placeholder is substituted with the
bare decimal string "5", not the shell-escaped `sh_quote "5" = "'5'"` the
claim requires for every placeholder of the fixed set. -/
theorem expand_template_pr_number_unquoted :
    expand_template PH_PR_NUMBER prC5 settingsBase "" = "5"
    ∧ sh_quote "5" = "'5'"
    ∧ expand_template PH_PR_NUMBER prC5 settingsBase "" ≠ sh_quote "5" := by
  refine ⟨by decide, by decide, by decide⟩

theorem lexLe_total : ∀ a b : List Char, lexLe a b = true ∨ lexLe b a = true := by
  intro a
  induction a with
  | nil => intro b; exact Or.inl rfl
  | cons c as ih =>
    intro b
    match b with
    | [] => exact Or.inr rfl
    | d :: bs =>
      by_cases h : c = d
      · subst h
        simp only [lexLe, if_pos rfl]
        exact ih bs
      · rcases lt_or_gt_of_ne h with hlt | hgt
        · left
          simp only [lexLe, if_neg h, decide_eq_true_eq]
          exact hlt
        · right
          simp only [lexLe, if_neg (Ne.symm h), decide_eq_true_eq]
          exact hgt

theorem lexLe_trans : ∀ a b c : List Char,
    lexLe a b = true → lexLe b c = true → lexLe a c = true := by
  intro a
  induction a with
  | nil => intro b c _ _; rfl
  | cons x as ih =>
    intro b c h1 h2
    match b, c with
    | [], _ => simp [lexLe] at h1
    | _ :: _, [] => simp [lexLe] at h2
    | y :: bs, z :: cs =>
      by_cases hxy : x = y
      · subst hxy
        by_cases hyz : x = z
        · subst hyz
          simp only [lexLe, if_pos rfl] at h1 h2 ⊢
          exact ih bs cs h1 h2
        · simp only [lexLe, if_neg hyz, decide_eq_true_eq] at h2
          simp only [lexLe, if_neg hyz, decide_eq_true_eq]
          exact h2
      · simp only [lexLe, if_neg hxy, decide_eq_true_eq] at h1
        by_cases hyz : y = z
        · subst hyz
          have hxz : ¬ (x = y) := hxy
          simp only [lexLe, if_neg hxz, decide_eq_true_eq]
          exact h1
        · simp only [lexLe, if_neg hyz, decide_eq_true_eq] at h2
          have hxz2 : x < z := lt_trans h1 h2
          have hxz : ¬ (x = z) := ne_of_lt hxz2
          simp only [lexLe, if_neg hxz, decide_eq_true_eq]
          exact hxz2

/-- C4: for every open-PR list, processed set and cap, the execute-path work
list contains no PR whose number is processed, is sorted descending by
`updated_at` under lexicographic string comparison, has length at most
`max_prs_per_run`, and keeps the most recently updated PRs: every kept PR is
at least as recent as every PR the truncation dropped. -/
theorem selectPrsForExecution_spec (open_prs : List OpenPr) (processed : List Nat)
    (maxp : Nat) :
    (∀ pr ∈ selectPrsForExecution open_prs processed maxp, pr.number ∉ processed)
    ∧ List.Sorted updatedDesc (selectPrsForExecution open_prs processed maxp)
    ∧ (selectPrsForExecution open_prs processed maxp).length ≤ maxp
    ∧ (∀ x ∈ selectPrsForExecution open_prs processed maxp,
        ∀ y ∈ (List.insertionSort updatedDesc
            (open_prs.filter (fun pr => !(processed.contains pr.number)))).drop maxp,
          updatedDesc x y) := by
  haveI htot : IsTotal OpenPr updatedDesc :=
    ⟨fun a b => lexLe_total b.updated_at.data a.updated_at.data⟩
  haveI htr : IsTrans OpenPr updatedDesc :=
    ⟨fun a b c h1 h2 => lexLe_trans c.updated_at.data b.updated_at.data a.updated_at.data h2 h1⟩
  have hsorted : List.Sorted updatedDesc
      (List.insertionSort updatedDesc
        (open_prs.filter (fun pr => !(processed.contains pr.number)))) :=
    List.sorted_insertionSort updatedDesc _
  refine ⟨?_, ?_, ?_, ?_⟩
  · intro pr hpr
    have h1 : pr ∈ List.insertionSort updatedDesc
        (open_prs.filter (fun pr => !(processed.contains pr.number))) :=
      List.mem_of_mem_take hpr
    have h2 : pr ∈ open_prs.filter (fun pr => !(processed.contains pr.number)) :=
      (List.perm_insertionSort updatedDesc _).subset h1
    have h3 := (List.mem_filter.mp h2).2
    intro hmem
    simp [List.contains, List.elem_eq_mem, hmem] at h3
  · exact hsorted.sublist (List.take_sublist _ _)
  · show (List.take maxp (List.insertionSort updatedDesc
        (open_prs.filter (fun pr => !(processed.contains pr.number))))).length ≤ maxp
    rw [List.length_take]
    omega
  · intro x hx y hy
    have hpw := hsorted
    rw [← List.take_append_drop maxp (List.insertionSort updatedDesc
      (open_prs.filter (fun pr => !(processed.contains pr.number))))] at hpw
    exact (List.pairwise_append.mp hpw).2.2 x hx y hy

theorem sizeOf_json_pos (j : Json) : 0 < sizeOf j := by
  cases j <;> simp

theorem sizeOf_lt_of_arr_mem {w : Json} {elems : List Json} (h : w ∈ elems) :
    sizeOf w < sizeOf (Json.arr elems) := by
  have h1 := List.sizeOf_lt_of_mem h
  simp only [Json.arr.sizeOf_spec]
  omega

theorem sizeOf_lt_of_obj_mem {k : String} {w : Json} {fields : List (String × Json)}
    (h : (k, w) ∈ fields) : sizeOf w < sizeOf (Json.obj fields) := by
  have h1 := List.sizeOf_lt_of_mem h
  have h2 : sizeOf (k, w) = 1 + sizeOf k + sizeOf w := rfl
  rw [h2] at h1
  simp only [Json.obj.sizeOf_spec]
  omega

theorem vcl_arr (elems : List Json) (login : String) :
    value_contains_login (Json.arr elems) login = true
      ↔ ∃ w ∈ elems, value_contains_login w login = true := by
  rw [value_contains_login]
  rw [List.any_eq_true]
  constructor
  · rintro ⟨x, _, hx⟩
    exact ⟨x.1, x.2, hx⟩
  · rintro ⟨w, hw, hvw⟩
    exact ⟨⟨w, hw⟩, List.mem_attach _ _, hvw⟩

theorem vcl_obj (fields : List (String × Json)) (login : String) :
    value_contains_login (Json.obj fields) login = true
      ↔ ((∃ v, fields.lookup "login" = some (Json.str v) ∧ eqIgnoreAsciiCase v login = true)
          ∨ ∃ k w, (k, w) ∈ fields ∧ value_contains_login w login = true) := by
  rw [value_contains_login]
  rw [Bool.or_eq_true, List.any_eq_true]
  constructor
  · rintro (hmatch | ⟨x, _, hx⟩)
    · left
      rcases hl : fields.lookup "login" with _ | j
      · rw [hl] at hmatch
        simp at hmatch
      · rw [hl] at hmatch
        cases j <;> simp at hmatch
        case str v => exact ⟨v, rfl, hmatch⟩
    · right
      exact ⟨x.1.1, x.1.2, x.2, hx⟩
  · rintro (⟨v, hl, heq⟩ | ⟨k, w, hkw, hvw⟩)
    · left
      rw [hl]
      exact heq
    · right
      exact ⟨⟨(k, w), hkw⟩, List.mem_attach _ _, hvw⟩

theorem vcl_scalar (login : String) :
    value_contains_login Json.null login = false
    ∧ (∀ b, value_contains_login (Json.bool b) login = false)
    ∧ (∀ i, value_contains_login (Json.num i) login = false)
    ∧ (∀ s, value_contains_login (Json.str s) login = false) := by
  refine ⟨?_, ?_, ?_, ?_⟩ <;> intros <;> rw [value_contains_login] <;> simp


/-- C9: the recursive involvement search reports the login exactly when some
object nested anywhere inside the value (at arbitrary depth through objects
and arrays) has a field literally named "login" whose string value equals the
login ASCII case-insensitively — never from a differently named field and
never from a mere substring occurrence. -/
theorem value_contains_login_iff (j : Json) (login : String) :
    value_contains_login j login = true
    ↔ ∃ fields, Subvalue (Json.obj fields) j
        ∧ ∃ v, fields.lookup "login" = some (Json.str v)
            ∧ eqIgnoreAsciiCase v login = true := by
  suffices H : ∀ n, ∀ j2 : Json, sizeOf j2 ≤ n →
      (value_contains_login j2 login = true
        ↔ ∃ fields, Subvalue (Json.obj fields) j2
            ∧ ∃ v, fields.lookup "login" = some (Json.str v)
                ∧ eqIgnoreAsciiCase v login = true) by
    exact H (sizeOf j) j le_rfl
  intro n
  induction n with
  | zero =>
    intro j2 hj
    have := sizeOf_json_pos j2
    omega
  | succ m ih =>
    intro j2 hj
    cases j2 with
    | null =>
      rw [(vcl_scalar login).1]
      constructor
      · intro h
        simp at h
      · rintro ⟨fields, hsub, _⟩
        cases hsub
    | bool b =>
      rw [(vcl_scalar login).2.1 b]
      constructor
      · intro h
        simp at h
      · rintro ⟨fields, hsub, _⟩
        cases hsub
    | num i =>
      rw [(vcl_scalar login).2.2.1 i]
      constructor
      · intro h
        simp at h
      · rintro ⟨fields, hsub, _⟩
        cases hsub
    | str s =>
      rw [(vcl_scalar login).2.2.2 s]
      constructor
      · intro h
        simp at h
      · rintro ⟨fields, hsub, _⟩
        cases hsub
    | arr elems =>
      rw [vcl_arr]
      constructor
      · rintro ⟨w, hw, hvw⟩
        have hs := sizeOf_lt_of_arr_mem hw
        have hj2 : sizeOf (Json.arr elems) ≤ m + 1 := hj
        obtain ⟨fields, hsub, hv⟩ := (ih w (by omega)).mp hvw
        exact ⟨fields, Subvalue.inArr hw hsub, hv⟩
      · rintro ⟨fields, hsub, hv⟩
        cases hsub with
        | inArr hw hsub2 =>
          rename_i w
          have hs := sizeOf_lt_of_arr_mem hw
          exact ⟨w, hw, (ih w (by omega)).mpr ⟨fields, hsub2, hv⟩⟩
    | obj fields =>
      rw [vcl_obj]
      constructor
      · rintro (⟨v, hlookup, heq⟩ | ⟨k, w, hkw, hvw⟩)
        · exact ⟨fields, Subvalue.refl _, v, hlookup, heq⟩
        · have hs := sizeOf_lt_of_obj_mem hkw
          obtain ⟨fields2, hsub, hv⟩ := (ih w (by omega)).mp hvw
          exact ⟨fields2, Subvalue.inObj hkw hsub, hv⟩
      · rintro ⟨fields2, hsub, v, hlookup, heq⟩
        cases hsub with
        | refl => exact Or.inl ⟨v, hlookup, heq⟩
        | inObj hkw hsub2 =>
          rename_i w k
          have hs := sizeOf_lt_of_obj_mem hkw
          exact Or.inr ⟨k, w, hkw, (ih w (by omega)).mpr ⟨fields2, hsub2, v, hlookup, heq⟩⟩

theorem run_shell_internal_true_ok (command : String) (raw : Except String CommandResult)
    (r : CommandResult) (h : run_shell_internal command raw true = Except.ok r) :
    r.exit_code = 0 := by
  cases raw with
  | error m => simp [run_shell_internal] at h
  | ok result =>
    simp only [run_shell_internal] at h
    split at h
    · simp at h
    · rename_i hcond
      cases h
      simp at hcond
      exact hcond

theorem retry_ok_exit (command : String) (raw : Nat → Except String CommandResult)
    (retries delay : Nat) (r : CommandResult)
    (h : (run_with_retry_streaming command raw retries delay).result = Except.ok r) :
    r.exit_code = 0 := by
  have spec := retryLoop_spec (fun i => run_shell_internal command (raw i) true) delay
    (Nat.max retries 1) 1
  have h2 : (retryLoop (fun i => run_shell_internal command (raw i) true) delay
      (Nat.max retries 1 + 1) 1).result = Except.ok r := h
  obtain ⟨hstep, _⟩ := spec.2.2.2.1 r h2
  exact run_shell_internal_true_ok command _ r hstep

theorem run_with_retryE_ok (command : String) (raw : Nat → Except String CommandResult)
    (retries delay : Nat) (r : CommandResult)
    (h : run_with_retryE command raw retries delay = Except.ok r) : r.exit_code = 0 := by
  unfold run_with_retryE renderErr at h
  split at h
  · simp at h
  · rename_i heq
    cases h
    exact retry_ok_exit command raw retries delay _ heq

theorem review_step_ok (penv : PrEnv) (settings : AppSettings) (pr : OpenPr)
    (r : CommandResult) (h : review_step penv settings pr = Except.ok r) :
    r.exit_code = 0 := by
  unfold review_step at h
  split at h
  · rename_i heq
    cases h
    exact retry_ok_exit _ _ _ _ _ heq
  · rename_i heq
    split at h
    · unfold renderErr at h
      split at h
      · simp at h
      · rename_i heq2
        cases h
        exact retry_ok_exit _ _ _ _ _ heq2
    · simp at h

theorem record_month_key (k : String) (c : MonthlyFixCounter) (n : Nat) :
    (record_monthly_fixed_pr k c n).2.month_key = k := by
  rw [record_eq]
  split
  · exact rotate_month_key k c
  · exact rotate_month_key k c

theorem sync_counter_eq (k : String) (c : MonthlyFixCounter) (s : SyncedEngineState)
    (hk : c.month_key = k) :
    (sync_monthly_fix_counter_into_state k c s).1 = c := by
  show rotate_if_needed k c = c
  exact rotate_of_key_eq k c hk

/-- The shape of every successful `execute_pr` outcome: identification fields
copied from the PR, zero exit codes, no error message, the chosen report
path, and the counter/state threading decided by the `pushed` flag. -/
theorem execute_pr_ok_shape (penv : PrEnv) (settings : AppSettings) (pr : OpenPr)
    (now_key : String) (counter : MonthlyFixCounter) (state : SyncedEngineState)
    (res : PrExecutionResult) (c2 : MonthlyFixCounter) (st2 : SyncedEngineState)
    (h : execute_pr penv settings pr now_key counter state = Except.ok (res, c2, st2)) :
    res.number = pr.number ∧ res.title = pr.title ∧ res.url = pr.url
    ∧ res.review_exit_code = 0 ∧ res.fix_exit_code = 0
    ∧ res.error_message = none ∧ res.report_path = penv.reportPath
    ∧ (res.pushed = true → c2 = (record_monthly_fixed_pr now_key counter pr.number).2)
    ∧ (res.pushed = false → c2 = counter ∧ st2 = state) := by
  rcases hps : penv.persistSnapshot with e1 | u1
  · simp [execute_pr, bind, Except.bind, hps] at h
  · rcases hco : run_with_retryE ("gh pr checkout " ++ toString pr.number) penv.checkoutRaw
        settings.max_command_retries settings.retry_delay_seconds with e2 | r2
    · simp [execute_pr, bind, Except.bind, hps, hco] at h
    · rcases hrv : review_step penv settings pr with e3 | review_result
      · simp [execute_pr, bind, Except.bind, hps, hco, hrv] at h
      · have hre := review_step_ok penv settings pr review_result hrv
        rcases hwr : penv.writeReport with e4 | u4
        · simp [execute_pr, bind, Except.bind, hps, hco, hrv, hwr] at h
        · rcases hfx : run_with_retryE
              (expand_template settings.fix_command_template pr settings penv.reportPath)
              penv.fixRaw settings.max_command_retries settings.retry_delay_seconds
            with e5 | fix_result
          · simp [execute_pr, bind, Except.bind, hps, hco, hrv, hwr, hfx] at h
          · have hfe := run_with_retryE_ok _ _ _ _ fix_result hfx
            rcases hap : settings.auto_push_enabled with _ | _
            · simp only [execute_pr, bind, Except.bind, hps, hco, hrv, hwr, hfx, hap,
                Bool.false_eq_true, if_false, hre, hfe, and_false,
                Except.ok.injEq, Prod.mk.injEq] at h
              obtain ⟨hres, hc2, hst2⟩ := h
              subst hres
              subst hc2
              subst hst2
              refine ⟨rfl, rfl, rfl, rfl, rfl, rfl, rfl, ?_, ?_⟩
              · intro hpf
                simp at hpf
              · intro _
                exact ⟨rfl, rfl⟩
            · rcases hcp : penv.commitPush with e6 | b
              · simp [execute_pr, bind, Except.bind, hps, hco, hrv, hwr, hfx, hap, hcp] at h
              · rcases b with _ | _
                · simp only [execute_pr, bind, Except.bind, hps, hco, hrv, hwr, hfx, hap,
                    if_true, hcp, hre, hfe, Bool.false_eq_true, and_false, if_false,
                    Except.ok.injEq, Prod.mk.injEq] at h
                  obtain ⟨hres, hc2, hst2⟩ := h
                  subst hres
                  subst hc2
                  subst hst2
                  refine ⟨rfl, rfl, rfl, rfl, rfl, rfl, rfl, ?_, ?_⟩
                  · intro hpf
                    simp at hpf
                  · intro _
                    exact ⟨rfl, rfl⟩
                · rcases hrec : record_monthly_fixed_pr now_key counter pr.number
                    with ⟨newly, rc⟩
                  rcases newly with _ | _
                  · simp only [execute_pr, bind, Except.bind, hps, hco, hrv, hwr, hfx, hap,
                      if_true, hcp, hre, hfe, hrec, and_true, true_and, and_self, if_pos,
                      Except.ok.injEq, Prod.mk.injEq] at h
                    obtain ⟨hres, hc2, hst2⟩ := h
                    subst hres
                    subst hc2
                    subst hst2
                    refine ⟨rfl, rfl, rfl, rfl, rfl, rfl, rfl, ?_, ?_⟩
                    · intro _
                      rfl
                    · intro hpf
                      simp at hpf
                  · rcases hsync : sync_monthly_fix_counter_into_state now_key rc state
                      with ⟨sc, sst⟩
                    rcases hss : penv.saveState with e7 | u7
                    · simp [execute_pr, bind, Except.bind, hps, hco, hrv, hwr, hfx, hap,
                        hcp, hre, hfe, hrec, hsync, hss] at h
                    · simp only [execute_pr, bind, Except.bind, hps, hco, hrv, hwr, hfx, hap,
                        if_true, hcp, hre, hfe, hrec, hsync, hss, and_true, true_and,
                        and_self, if_pos, Except.ok.injEq, Prod.mk.injEq] at h
                      obtain ⟨hres, hc2, hst2⟩ := h
                      subst hres
                      subst hc2
                      subst hst2
                      have hkey : rc.month_key = now_key := by
                        have hmk := record_month_key now_key counter pr.number
                        rw [hrec] at hmk
                        exact hmk
                      have hsc : sc = rc := by
                        have hsy := sync_counter_eq now_key rc state hkey
                        rw [hsync] at hsy
                        exact hsy
                      refine ⟨rfl, rfl, rfl, rfl, rfl, rfl, rfl, ?_, ?_⟩
                      · intro _
                        simp [hsc]
                      · intro hpf
                        simp at hpf

/-- C10: every `PrExecutionResult` a per-PR execution produces without error
has `error_message = none`, `review_exit_code = 0` and `fix_exit_code = 0`
(the retry wrapper runs with fail-on-non-zero and only returns success on
exit code 0, so the "review succeeded and fix succeeded" guard before the
monthly-counter record is automatically satisfied), and only the `pushed`
flag decides whether the month counter records the PR: when `pushed` the
resulting counter is exactly the one `record_monthly_fixed_pr` yields, and
when not pushed the counter and engine state are returned unchanged. -/
theorem execute_pr_success_invariant (penv : PrEnv) (settings : AppSettings) (pr : OpenPr)
    (now_key : String) (counter : MonthlyFixCounter) (state : SyncedEngineState)
    (res : PrExecutionResult) (c2 : MonthlyFixCounter) (st2 : SyncedEngineState)
    (h : execute_pr penv settings pr now_key counter state = Except.ok (res, c2, st2)) :
    res.number = pr.number ∧ res.title = pr.title ∧ res.url = pr.url
    ∧ res.review_exit_code = 0 ∧ res.fix_exit_code = 0
    ∧ res.error_message = none ∧ res.report_path = penv.reportPath
    ∧ (res.pushed = true → c2 = (record_monthly_fixed_pr now_key counter pr.number).2)
    ∧ (res.pushed = false → c2 = counter ∧ st2 = state) :=
  execute_pr_ok_shape penv settings pr now_key counter state res c2 st2 h

/-- C10 (witness): at a concrete run — every external step succeeds,
auto-push disabled — `execute_pr` returns `resNoPush`, whose exit codes are
0, whose error message is none, and which leaves the counter and state
unchanged. -/
theorem execute_pr_success_invariant_witness :
    resNoPush.review_exit_code = 0 ∧ resNoPush.fix_exit_code = 0
    ∧ resNoPush.error_message = none
    ∧ resNoPush.pushed = false := by
  have hmain := execute_pr_success_invariant prEnvOk settingsNoPush prC5 "2026-10"
    ⟨"2026-10", []⟩ stateEmpty resNoPush ⟨"2026-10", []⟩ stateEmpty rfl
  exact ⟨hmain.2.2.2.1, hmain.2.2.2.2.1, hmain.2.2.2.2.2.1, rfl⟩

/-- C2 (amended): if the settings have an empty (after trim) `repo_path`,
then — whatever `repo_clone_url` holds — `run_workflow` ends with status
Failed at stage Failed, with the error message "settings.repo_path is empty",
no per-PR work (empty report, zero total PRs) and the engine state returned
unchanged: `ensure_repo_ready` rejects the empty `repo_path` before it ever
reaches the auto-clone check, so the "cannot auto clone" message of the
original claim is not the one produced. -/
theorem run_workflow_empty_repo_path (env : WorkflowEnv) (settings : AppSettings)
    (state : SyncedEngineState) (now_key : String)
    (snap : RunSnapshot) (st2 : SyncedEngineState)
    (hps : env.persistSnapshot = Except.ok ())
    (hval : validate_required_commands env = Except.ok ())
    (hrp : strIsEmpty (rustTrim settings.repo_path) = true)
    (h : run_workflow env settings state now_key = Except.ok (snap, st2)) :
    snap.status = RunStatus.Failed ∧ snap.stage = ExecutionStage.Failed
    ∧ snap.error_message = some "settings.repo_path is empty"
    ∧ snap.report = [] ∧ snap.total_prs = 0 ∧ st2 = state := by
  have hrep : ensure_repo_ready env settings = Except.error "settings.repo_path is empty" := by
    simp [ensure_repo_ready, hrp]
  simp only [run_workflow, failRun, hps, hval, hrep, Except.ok.injEq, Prod.mk.injEq] at h
  obtain ⟨hsnap, hst⟩ := h
  subst hsnap
  subst hst
  refine ⟨?_, ?_, ?_, ?_, ?_, rfl⟩
  · simp [log_step, append_log_status]
  · simp [log_step, append_log_stage]
  · simp [log_step, append_log_error_message]
  · simp [log_step, append_log_report]
  · simp [log_step, append_log_total_prs]

/-- C2 (witness): the concrete empty-`repo_path` run — all external tools
present, empty clone URL — ends at stage Failed with an empty report and
zero total PRs. -/
theorem run_workflow_empty_repo_path_witness :
    snapEmptyPath.stage = ExecutionStage.Failed ∧ snapEmptyPath.report = []
    ∧ snapEmptyPath.total_prs = 0 := by
  have hmain := run_workflow_empty_repo_path envAllOk settingsEmptyPath stateEmpty "2026-10"
    snapEmptyPath stateEmpty rfl rfl rfl rfl
  exact ⟨hmain.2.1, hmain.2.2.2.1, hmain.2.2.2.2.1⟩

/-- C2 (counterexample): on settings with empty `repo_path` and empty
`repo_clone_url`, the run does end Failed, but its error message is
"settings.repo_path is empty", which does not mention "cannot auto clone":
the claimed message belongs to the later branch of `ensure_repo_ready` that
an empty `repo_path` never reaches. -/
theorem run_workflow_empty_path_message :
    snapEmptyPath.status = RunStatus.Failed
    ∧ snapEmptyPath.error_message = some "settings.repo_path is empty"
    ∧ containsSub "settings.repo_path is empty" "cannot auto clone" = false := by
  refine ⟨rfl, rfl, by decide⟩

theorem countFailed_append (a b : List PrExecutionResult) :
    countFailed (a ++ b) = countFailed a + countFailed b :=
  List.countP_append _ a b

theorem countFailed_perm {a b : List PrExecutionResult} (h : a.Perm b) :
    countFailed a = countFailed b :=
  h.countP_eq _

theorem loopFailSnapshot_report (env : WorkflowEnv) (pr : OpenPr) (err : String)
    (idx total : Nat) (snapshot : RunSnapshot) :
    (loopFailSnapshot env pr err idx total snapshot).report
      = List.insertionSort reportByNumber (snapshot.report ++ [failedEntry pr err]) := by
  simp [loopFailSnapshot, log_step, append_log_report]

theorem loopOkSnapshot_report (env : WorkflowEnv) (pr : OpenPr)
    (pr_result : PrExecutionResult) (idx total : Nat) (snapshot : RunSnapshot) :
    (loopOkSnapshot env pr pr_result idx total snapshot).report
      = List.insertionSort reportByNumber (snapshot.report ++ [pr_result]) := by
  simp [loopOkSnapshot, log_step, append_log_report]

theorem runPrLoop_cons_error (env : WorkflowEnv) (settings : AppSettings) (now_key : String)
    (total : Nat) (pr : OpenPr) (rest : List OpenPr) (idx failures : Nat)
    (counter : MonthlyFixCounter) (state : SyncedEngineState) (snapshot : RunSnapshot)
    (acc : List Nat) (err : String)
    (hps : env.persistSnapshot = Except.ok ())
    (hex : execute_pr (env.prEnv pr) settings pr now_key counter state = Except.error err) :
    runPrLoop env settings now_key total (pr :: rest) idx failures counter state snapshot acc
      = runPrLoop env settings now_key total rest (idx + 1) (failures + 1) counter state
          (loopFailSnapshot env pr err idx total snapshot) acc := by
  simp only [runPrLoop, hex, hps, loopFailSnapshot, log_step]

theorem runPrLoop_cons_ok (env : WorkflowEnv) (settings : AppSettings) (now_key : String)
    (total : Nat) (pr : OpenPr) (rest : List OpenPr) (idx failures : Nat)
    (counter : MonthlyFixCounter) (state : SyncedEngineState) (snapshot : RunSnapshot)
    (acc : List Nat) (pr_result : PrExecutionResult) (counter2 : MonthlyFixCounter)
    (state2 : SyncedEngineState)
    (hps : env.persistSnapshot = Except.ok ())
    (hex : execute_pr (env.prEnv pr) settings pr now_key counter state
      = Except.ok (pr_result, counter2, state2)) :
    runPrLoop env settings now_key total (pr :: rest) idx failures counter state snapshot acc
      = runPrLoop env settings now_key total rest (idx + 1) failures counter2 state2
          (loopOkSnapshot env pr pr_result idx total snapshot)
          (if pr.number ∈ acc then acc else pr.number :: acc) := by
  simp only [runPrLoop, hex, hps, loopOkSnapshot, log_step]

theorem runPrLoop_ok (env : WorkflowEnv) (settings : AppSettings) (now_key : String)
    (total : Nat) (hps : env.persistSnapshot = Except.ok ()) :
    ∀ (prs : List OpenPr) (idx failures : Nat) (counter : MonthlyFixCounter)
      (state : SyncedEngineState) (snapshot : RunSnapshot) (acc : List Nat),
      ∃ failures2 counter2 state2 snap2 acc2,
        runPrLoop env settings now_key total prs idx failures counter state snapshot acc
          = Except.ok (failures2, counter2, state2, snap2, acc2)
        ∧ snap2.report.length = snapshot.report.length + prs.length
        ∧ countFailed snap2.report + failures = countFailed snapshot.report + failures2
        ∧ (∀ e ∈ snapshot.report, e ∈ snap2.report)
        ∧ (∀ pr ∈ prs, ∃ e, e ∈ snap2.report ∧ e.number = pr.number)
        ∧ (∀ e ∈ snap2.report, e ∈ snapshot.report ∨ e.error_message = none
            ∨ (e.review_exit_code = -1 ∧ e.fix_exit_code = -1 ∧ e.error_message ≠ none)) := by
  intro prs
  induction prs with
  | nil =>
    intro idx failures counter state snapshot acc
    exact ⟨failures, counter, state, snapshot, acc, rfl, by simp, rfl,
      fun e he => he, by simp, fun e he => Or.inl he⟩
  | cons pr rest ih =>
    intro idx failures counter state snapshot acc
    rcases hex : execute_pr (env.prEnv pr) settings pr now_key counter state
      with err | ⟨pr_result, counter2, state2⟩
    · -- the PR fails: its failure is recorded and the loop continues on `rest`
      obtain ⟨f2, c2, s2, sn2, a2, heq, hlen, hcnt, hsub, hcov, hshape⟩ :=
        ih (idx + 1) (failures + 1) counter state
          (loopFailSnapshot env pr err idx total snapshot) acc
      have hperm : (loopFailSnapshot env pr err idx total snapshot).report.Perm
          (snapshot.report ++ [failedEntry pr err]) := by
        rw [loopFailSnapshot_report]
        exact List.perm_insertionSort reportByNumber _
      refine ⟨f2, c2, s2, sn2, a2, ?_, ?_, ?_, ?_, ?_, ?_⟩
      · rw [runPrLoop_cons_error env settings now_key total pr rest idx failures counter
          state snapshot acc err hps hex]
        exact heq
      · rw [hlen, hperm.length_eq, List.length_append]
        simp [Nat.add_assoc, Nat.add_comm 1 rest.length]
      · rw [countFailed_perm hperm, countFailed_append] at hcnt
        have hfe : countFailed [failedEntry pr err] = 1 := by
          simp [countFailed, List.countP_cons, List.countP_nil, failedEntry]
        rw [hfe] at hcnt
        omega
      · intro e he
        refine hsub e ?_
        exact hperm.mem_iff.mpr (List.mem_append_left _ he)
      · intro p hp
        rcases List.mem_cons.mp hp with hp1 | hp1
        · subst hp1
          refine ⟨failedEntry p err, ?_, rfl⟩
          refine hsub _ ?_
          exact hperm.mem_iff.mpr (List.mem_append_right _ (List.mem_singleton_self _))
        · exact hcov p hp1
      · intro e he
        rcases hshape e he with hmem | hrest
        · rcases List.mem_append.mp (hperm.mem_iff.mp hmem) with h1 | h1
          · exact Or.inl h1
          · right
            right
            rw [List.mem_singleton.mp h1]
            simp [failedEntry]
        · exact Or.inr hrest
    · -- the PR succeeds: its result is recorded and the loop continues on `rest`
      have hshape0 := execute_pr_ok_shape (env.prEnv pr) settings pr now_key counter state
        pr_result counter2 state2 hex
      obtain ⟨f2, c2, s2, sn2, a2, heq, hlen, hcnt, hsub, hcov, hshape⟩ :=
        ih (idx + 1) failures counter2 state2
          (loopOkSnapshot env pr pr_result idx total snapshot)
          (if pr.number ∈ acc then acc else pr.number :: acc)
      have hperm : (loopOkSnapshot env pr pr_result idx total snapshot).report.Perm
          (snapshot.report ++ [pr_result]) := by
        rw [loopOkSnapshot_report]
        exact List.perm_insertionSort reportByNumber _
      refine ⟨f2, c2, s2, sn2, a2, ?_, ?_, ?_, ?_, ?_, ?_⟩
      · rw [runPrLoop_cons_ok env settings now_key total pr rest idx failures counter
          state snapshot acc pr_result counter2 state2 hps hex]
        exact heq
      · rw [hlen, hperm.length_eq, List.length_append]
        simp [Nat.add_assoc, Nat.add_comm 1 rest.length]
      · rw [countFailed_perm hperm, countFailed_append] at hcnt
        have hfe : countFailed [pr_result] = 0 := by
          simp [countFailed, List.countP_cons, List.countP_nil, hshape0.2.2.2.2.2.1]
        rw [hfe] at hcnt
        omega
      · intro e he
        refine hsub e ?_
        exact hperm.mem_iff.mpr (List.mem_append_left _ he)
      · intro p hp
        rcases List.mem_cons.mp hp with hp1 | hp1
        · subst hp1
          refine ⟨pr_result, ?_, hshape0.1⟩
          refine hsub _ ?_
          exact hperm.mem_iff.mpr (List.mem_append_right _ (List.mem_singleton_self _))
        · exact hcov p hp1
      · intro e he
        rcases hshape e he with hmem | hrest
        · rcases List.mem_append.mp (hperm.mem_iff.mp hmem) with h1 | h1
          · exact Or.inl h1
          · right
            left
            rw [List.mem_singleton.mp h1]
            exact hshape0.2.2.2.2.2.1
        · exact Or.inr hrest

/-- C8: once per-PR execution has begun (tool validation, repository
preparation, template validation, sync and PR listing all succeeded), the
run always completes: every selected PR contributes exactly one report
entry (a failing PR does not abort the loop — the work list is fully
attempted), a failed PR's entry carries `-1` sentinel exit codes and a
populated error message while a successful PR's entry carries none, and the
terminal status is Failed exactly when at least one PR failed, else
Succeeded. -/
theorem run_workflow_per_pr_failure (env : WorkflowEnv) (settings : AppSettings)
    (state : SyncedEngineState) (now_key : String) (open_prs : List OpenPr)
    (hps : env.persistSnapshot = Except.ok ())
    (hss : env.saveState = Except.ok ())
    (hval : validate_required_commands env = Except.ok ())
    (hrep : ensure_repo_ready env settings = Except.ok ())
    (htpl : validate_command_templates settings = Except.ok ())
    (hsync : sync_repository env settings = Except.ok ())
    (hlist : list_open_prs env settings = Except.ok open_prs) :
    ∃ snap st2,
      run_workflow env settings state now_key = Except.ok (snap, st2)
      ∧ snap.report.length
          = (selectPrsForExecution open_prs state.processed_pr_numbers
              settings.max_prs_per_run).length
      ∧ (∀ pr ∈ selectPrsForExecution open_prs state.processed_pr_numbers
            settings.max_prs_per_run,
          ∃ e, e ∈ snap.report ∧ e.number = pr.number)
      ∧ (∀ e ∈ snap.report, e.error_message = none
          ∨ (e.review_exit_code = -1 ∧ e.fix_exit_code = -1 ∧ e.error_message ≠ none))
      ∧ (snap.status = RunStatus.Failed ∨ snap.status = RunStatus.Succeeded)
      ∧ (snap.status = RunStatus.Failed ↔ ∃ e ∈ snap.report, e.error_message ≠ none) := by
  simp only [run_workflow, hps, hval, hrep, htpl, hsync, hlist, failRun]
  by_cases hempty : selectPrsForExecution open_prs state.processed_pr_numbers
      settings.max_prs_per_run = []
  · rw [hempty]
    simp only [List.isEmpty_nil, if_true, sync_monthly_fix_counter_into_state, hss]
    refine ⟨_, _, rfl, ?_, ?_, ?_, ?_, ?_⟩
    · simp [log_step, append_log_report]
    · simp
    · simp [log_step, append_log_report]
    · right
      simp [log_step, append_log_status]
    · constructor
      · intro hst
        simp [log_step, append_log_status] at hst
      · rintro ⟨e, he, _⟩
        simp [log_step, append_log_report] at he
  · have hni : (selectPrsForExecution open_prs state.processed_pr_numbers
        settings.max_prs_per_run).isEmpty = false := by
      rcases hsel : selectPrsForExecution open_prs state.processed_pr_numbers
          settings.max_prs_per_run with _ | ⟨a, l⟩
      · exact absurd hsel hempty
      · rfl
    simp only [hni, Bool.false_eq_true, if_false]
    obtain ⟨f2, c2, s2, sn2, a2, heq, hlen, hcnt, hsub, hcov, hshape⟩ :=
      runPrLoop_ok env settings now_key _ hps
        (selectPrsForExecution open_prs state.processed_pr_numbers settings.max_prs_per_run)
        0 0 (initialize_monthly_fix_counter state now_key) state _ state.processed_pr_numbers
    rw [heq]
    simp only [sync_monthly_fix_counter_into_state, hss]
    have hc : countFailed sn2.report = f2 := by
      simp only [log_step, append_log_report] at hcnt
      simpa [countFailed] using hcnt
    have hlen2 : sn2.report.length
        = (selectPrsForExecution open_prs state.processed_pr_numbers
            settings.max_prs_per_run).length := by
      simp only [log_step, append_log_report] at hlen
      simpa using hlen
    by_cases hf : 0 < f2
    · rw [if_pos hf]
      refine ⟨_, _, rfl, ?_, ?_, ?_, ?_, ?_⟩
      · simpa [log_step, append_log_report] using hlen2
      · intro pr hpr
        obtain ⟨e, he, hn⟩ := hcov pr hpr
        refine ⟨e, ?_, hn⟩
        simpa [log_step, append_log_report] using he
      · intro e he
        simp only [log_step] at he
        rw [append_log_report] at he
        simp only [RunSnapshot.mk.injEq] at he
        rcases hshape e (by simpa [log_step, append_log_report] using he) with hmem | hrest
        · simp [log_step, append_log_report] at hmem
        · exact hrest
      · left
        simp [log_step, append_log_status]
      · constructor
        · intro _
          have hpos : 0 < countFailed sn2.report := by omega
          obtain ⟨e, he, hpe⟩ := List.countP_pos_iff.mp hpos
          refine ⟨e, ?_, Option.ne_none_iff_isSome.mpr hpe⟩
          simpa [log_step, append_log_report] using he
        · intro _
          simp [log_step, append_log_status]
    · rw [if_neg hf]
      refine ⟨_, _, rfl, ?_, ?_, ?_, ?_, ?_⟩
      · simpa [log_step, append_log_report] using hlen2
      · intro pr hpr
        obtain ⟨e, he, hn⟩ := hcov pr hpr
        refine ⟨e, ?_, hn⟩
        simpa [log_step, append_log_report] using he
      · intro e he
        rcases hshape e (by simpa [log_step, append_log_report] using he) with hmem | hrest
        · simp [log_step, append_log_report] at hmem
        · exact hrest
      · right
        simp [log_step, append_log_status]
      · constructor
        · intro hst
          simp [log_step, append_log_status] at hst
        · rintro ⟨e, he, hne⟩
          exfalso
          have he2 : e ∈ sn2.report := by
            simpa [log_step, append_log_report] using he
          have hpos : 0 < countFailed sn2.report :=
            List.countP_pos_iff.mpr ⟨e, he2, Option.ne_none_iff_isSome.mp hne⟩
          omega

/-- C8 (witness): the two-PR scenario — PR #10 succeeds while PR #11's
review command always fails — satisfies the per-PR-failure contract: the run
completes, both PRs are recorded in the report, every entry is either clean
or a populated failure, and the terminal status is Failed exactly when some
entry failed. -/
theorem run_workflow_per_pr_failure_witness :
    ∃ snap st2,
      run_workflow envTwoPrs settingsNoPush stateEmpty "2026-10" = Except.ok (snap, st2)
      ∧ snap.report.length
          = (selectPrsForExecution [prTen, prEleven] stateEmpty.processed_pr_numbers
              settingsNoPush.max_prs_per_run).length
      ∧ (∀ pr ∈ selectPrsForExecution [prTen, prEleven] stateEmpty.processed_pr_numbers
            settingsNoPush.max_prs_per_run,
          ∃ e, e ∈ snap.report ∧ e.number = pr.number)
      ∧ (∀ e ∈ snap.report, e.error_message = none
          ∨ (e.review_exit_code = -1 ∧ e.fix_exit_code = -1 ∧ e.error_message ≠ none))
      ∧ (snap.status = RunStatus.Failed ∨ snap.status = RunStatus.Succeeded)
      ∧ (snap.status = RunStatus.Failed ↔ ∃ e ∈ snap.report, e.error_message ≠ none) :=
  run_workflow_per_pr_failure envTwoPrs settingsNoPush stateEmpty "2026-10"
    [prTen, prEleven] rfl rfl rfl rfl rfl rfl rfl
